import Mathlib

/-!
Shallow embedding, in Lean 4, of the agent execution and planning core of the
`ai-manus` backend: the files `app/domain/services/agents/execution.py` and
`app/domain/services/agents/planner.py`.

Modelling conventions:
* Python strings are Lean `String` / `List Char`; Python `None` and JSON values
  are both modelled by the inductive type `JVal` below (Python `None` is
  `JVal.null`), so that `dict.get`, truthiness tests and `is not None` tests
  translate directly.
* JSON numbers are modelled as integers; every payload evaluated in this
  development uses only integral numerals.
* External collaborators (HTTP requests, browser tools, the LLM tool-calling
  loop, the JSON repair parser, the current date) are oracle fields of a
  `World` structure; calls that the source may perform several times are
  indexed by an invocation counter, so two calls to the same endpoint may
  observe different answers.
* Async generators are modelled as functions returning the full list of
  yielded events; each yield additionally records the value of the tool-set
  restriction flag at that yield and whether the yield statement lies inside
  the `try` block of `execute_step`, which determines whether the `finally`
  clause runs when a consumer abandons the sequence at that yield.
-/

namespace Manus

/-- ASCII lower-casing; models Python `str.lower` on the ASCII inputs used here. -/
def pyLower (s : String) : String := String.mk (s.toList.map Char.toLower)

/-- List-of-characters prefix test. -/
def isPrefixL : List Char → List Char → Bool
  | [], _ => true
  | _ :: _, [] => false
  | p :: ps, c :: cs => p == c && isPrefixL ps cs

/-- containsL hay needle models the Python test needle in hay on strings. -/
def containsL (hay pat : List Char) : Bool :=
  match hay with
  | [] => isPrefixL pat []
  | _ :: cs => isPrefixL pat hay || containsL cs pat

/-- String containment: containsSub s pat models Python pat in s. -/
def containsSub (s pat : String) : Bool := containsL s.toList pat.toList

/-- Fueled body of Python `str.replace`: replace every non-overlapping
occurrence of `old` (nonempty) by `new`, scanning left to right.  The fuel
only needs to cover the input length; recursion is structural on it so the
function reduces definitionally. -/
def replaceL (old new : List Char) : Nat → List Char → List Char
  | 0, cs => cs
  | fuel + 1, cs =>
    match cs with
    | [] => []
    | c :: rest =>
      if old ≠ [] ∧ isPrefixL old cs = true then
        new ++ replaceL old new fuel (cs.drop old.length)
      else
        c :: replaceL old new fuel rest

/-- Python `str.replace(old, new)` for nonempty `old`. -/
def pyReplace (s old new : String) : String :=
  String.mk (replaceL old.toList new.toList s.toList.length s.toList)

/-- ASCII whitespace (the whitespace characters that occur in our inputs). -/
def wsp (c : Char) : Bool :=
  c == ' ' || c == '\t' || c == '\n' || c == '\r' || c == '\x0b' || c == '\x0c'

/-- Python `str.strip()`: drop whitespace from both ends. -/
def pyStrip (s : String) : String :=
  String.mk (((s.toList.dropWhile wsp).reverse.dropWhile wsp).reverse)

/-- Uppercase hexadecimal digit for a value below 16. -/
def hexDigitU (n : Nat) : Char :=
  if n < 10 then Char.ofNat (48 + n) else Char.ofNat (55 + n)

/-- Characters `urllib.parse.quote` leaves unescaped (default `safe='/'`). -/
def pquoteSafe (c : Char) : Bool :=
  c.isAlpha || c.isDigit || c == '_' || c == '.' || c == '-' || c == '~' || c == '/'

/-- The UTF-8 encoding of a character, as byte values. -/
def utf8Bytes (c : Char) : List Nat :=
  let n := c.toNat
  if n < 0x80 then [n]
  else if n < 0x800 then [0xC0 + n / 64, 0x80 + n % 64]
  else if n < 0x10000 then [0xE0 + n / 4096, 0x80 + n / 64 % 64, 0x80 + n % 64]
  else [0xF0 + n / 262144, 0x80 + n / 4096 % 64, 0x80 + n / 64 % 64, 0x80 + n % 64]

/-- Percent-encoding of one character, byte by byte over its UTF-8 encoding. -/
def pquoteChar (c : Char) : String :=
  if pquoteSafe c then String.singleton c
  else
    String.mk ((utf8Bytes c).foldr
      (fun b acc => '%' :: hexDigitU (b / 16) :: hexDigitU (b % 16) :: acc) [])

/-- Models `urllib.parse.quote`. -/
def pquote (s : String) : String := String.join (s.toList.map pquoteChar)

/-- Python `int(x)` on a string: optional sign then decimal digits. -/
def strToInt (s : String) : Option Int :=
  let t := (pyStrip s).toList
  let core : List Char → Option Nat := fun ds =>
    if ds = [] then none
    else if ds.all Char.isDigit then
      some (ds.foldl (fun acc c => acc * 10 + (c.toNat - 48)) 0)
    else none
  match t with
  | '-' :: ds => (core ds).map (fun n => -(n : Int))
  | '+' :: ds => (core ds).map (fun n => (n : Int))
  | ds => (core ds).map (fun n => (n : Int))

/-! ### JSON values (and Python objects) -/

/-- JSON values, doubling as the Python values that flow through the agent
(`None` is `.null`; `dict` is `.obj`; numbers are modelled as integers). -/
inductive JVal where
  | null
  | bool (b : Bool)
  | num (n : Int)
  | str (s : String)
  | arr (items : List JVal)
  | obj (entries : List (String × JVal))

instance : Inhabited JVal := ⟨.null⟩

/-- Python truthiness of a value. -/
def pyTruthy : JVal → Bool
  | .null => false
  | .bool b => b
  | .num n => decide (n ≠ 0)
  | .str s => decide (s ≠ "")
  | .arr xs => !xs.isEmpty
  | .obj kvs => !kvs.isEmpty

/-- Truthiness of an `Optional` Python value (used for `if data:` tests on
values that are either absent or a `JVal`). -/
def pyTruthyO : Option JVal → Bool
  | none => false
  | some v => pyTruthy v

/-- Truthiness of an `Optional[str]` (`if result_text:`). -/
def sTruthy : Option String → Bool
  | none => false
  | some s => decide (s ≠ "")

/-- Python `is not None` (`JVal.null` models `None`). -/
def isNotNone : JVal → Bool
  | .null => false
  | _ => true

/-- Python `a or b` on values: the first operand when truthy, else the second. -/
def pyOr (a b : JVal) : JVal := if pyTruthy a then a else b

def JVal.isObj : JVal → Bool
  | .obj _ => true
  | _ => false

def JVal.isArr : JVal → Bool
  | .arr _ => true
  | _ => false

def JVal.isStr : JVal → Bool
  | .str _ => true
  | _ => false

/-- First-match association lookup (object entries are key-unique because
`objInsert` overwrites in place, mirroring Python dict assignment). -/
def lookupJ : List (String × JVal) → String → Option JVal
  | [], _ => none
  | (k', v) :: rest, k => if k' = k then some v else lookupJ rest k

/-- Python `dict.get(k)`: the value under `k`, or `None`; `None` on non-dicts
(the source only calls `.get` on values it has checked or typed as dicts). -/
def jget (v : JVal) (k : String) : JVal :=
  match v with
  | .obj kvs => (lookupJ kvs k).getD .null
  | _ => .null

/-- Python `k in d` on a dict (false on non-dicts reached in this model). -/
def jHasKey (v : JVal) (k : String) : Bool :=
  match v with
  | .obj kvs => (lookupJ kvs k).isSome
  | _ => false

/-- Python dict assignment `d[k] = v`: overwrite in place or append. -/
def objInsert : List (String × JVal) → String → JVal → List (String × JVal)
  | [], k, v => [(k, v)]
  | (k', v') :: rest, k, v =>
    if k' = k then (k', v) :: rest else (k', v') :: objInsert rest k v

/-- Python `str(x)` for the values interpolated into messages here (strings and
integers; the remaining constructors do not reach an f-string in the runs this
development evaluates). -/
def pyStr : JVal → String
  | .null => "None"
  | .bool b => if b then "True" else "False"
  | .num n => toString n
  | .str s => s
  | .arr _ => "[...]"
  | .obj _ => "{...}"

/-! ### A model of `json.loads`

Strict JSON: values, objects, arrays, strings with the basic escapes, and
integer numerals (a numeral with a fraction or exponent part makes the parse
fail in this model; no such numeral occurs in the payloads evaluated here).
Trailing non-whitespace after the value is an error, exactly as in Python. -/

/-- JSON whitespace. -/
def jWs (c : Char) : Bool := c == ' ' || c == '\t' || c == '\n' || c == '\r'

def skipWs : List Char → List Char
  | [] => []
  | c :: cs => if jWs c then skipWs cs else c :: cs

/-- Parse the remainder of a string literal (the opening quote is consumed). -/
def parseStrChars : List Char → Option (List Char × List Char)
  | [] => none
  | '"' :: rest => some ([], rest)
  | '\\' :: e :: rest =>
    (match e with
     | '"' => some '"'
     | '\\' => some '\\'
     | '/' => some '/'
     | 'n' => some '\n'
     | 't' => some '\t'
     | 'r' => some '\r'
     | 'b' => some (Char.ofNat 8)
     | 'f' => some (Char.ofNat 12)
     | _ => none).bind
      (fun c => (parseStrChars rest).map
        (fun (p : List Char × List Char) => (c :: p.1, p.2)))
  | c :: rest =>
    (parseStrChars rest).map (fun (p : List Char × List Char) => (c :: p.1, p.2))

/-- Consume a run of decimal digits. -/
def takeDigitsL : List Char → List Char × List Char
  | [] => ([], [])
  | c :: cs =>
    if c.isDigit then
      let p := takeDigitsL cs
      (c :: p.1, p.2)
    else ([], c :: cs)

/-- Parse an unsigned JSON integer numeral (no leading zeros, no fraction or
exponent part). -/
def parseNatPart (cs : List Char) : Option (Nat × List Char) :=
  match cs with
  | '0' :: rest =>
    match rest with
    | c :: _ => if c.isDigit || c == '.' || c == 'e' || c == 'E' then none else some (0, rest)
    | [] => some (0, [])
  | c :: _ =>
    if c.isDigit then
      let p := takeDigitsL cs
      match p.2 with
      | d :: _ => if d == '.' || d == 'e' || d == 'E' then none
                  else some (p.1.foldl (fun acc ch => acc * 10 + (ch.toNat - 48)) 0, p.2)
      | [] => some (p.1.foldl (fun acc ch => acc * 10 + (ch.toNat - 48)) 0, [])
    else none
  | [] => none

/-- Parsing mode of the fueled JSON parser: a value, the items of an array
after the opening bracket (nonempty case), or the members of an object after
the opening brace (nonempty case). -/
inductive PMode where
  | val
  | arrItems
  | objItems

/-- Fueled JSON parser, a single function structurally recursive on the fuel
(so it reduces definitionally).  In arrItems (resp. objItems) mode the
returned value is always an `.arr` (resp. `.obj`) collecting the members in
source order; object members are then folded with `objInsert`, so a
duplicate key keeps its first position but its last value, as a Python dict
built by successive assignments does. -/
def parseJ : Nat → PMode → List Char → Option (JVal × List Char)
  | 0, _, _ => none
  | fuel + 1, .val, cs =>
    match skipWs cs with
    | '"' :: rest =>
      (parseStrChars rest).map
        (fun (p : List Char × List Char) => (.str (String.mk p.1), p.2))
    | '\x7b' :: rest =>
      (match skipWs rest with
       | '\x7d' :: r2 => some (.obj [], r2)
       | cs' =>
         (parseJ fuel .objItems cs').map (fun p =>
           match p with
           | (.obj ms, r) => (.obj (ms.foldl (fun m kv => objInsert m kv.1 kv.2) []), r)
           | other => other))
    | '[' :: rest =>
      (match skipWs rest with
       | ']' :: r2 => some (.arr [], r2)
       | cs' => parseJ fuel .arrItems cs')
    | 't' :: rest => if isPrefixL ['r', 'u', 'e'] rest then some (.bool true, rest.drop 3) else none
    | 'f' :: rest => if isPrefixL ['a', 'l', 's', 'e'] rest then some (.bool false, rest.drop 4) else none
    | 'n' :: rest => if isPrefixL ['u', 'l', 'l'] rest then some (.null, rest.drop 3) else none
    | '-' :: rest => (parseNatPart rest).map (fun p => (.num (-(p.1 : Int)), p.2))
    | cs' => (parseNatPart cs').map (fun p => (.num (p.1 : Int), p.2))
  | fuel + 1, .arrItems, cs =>
    (parseJ fuel .val cs).bind (fun p =>
      match skipWs p.2 with
      | ',' :: rest =>
        (parseJ fuel .arrItems rest).bind (fun q =>
          match q.1 with
          | .arr items => some (.arr (p.1 :: items), q.2)
          | _ => none)
      | ']' :: rest => some (.arr [p.1], rest)
      | _ => none)
  | fuel + 1, .objItems, cs =>
    match skipWs cs with
    | '"' :: rest =>
      (parseStrChars rest).bind (fun kp =>
        match skipWs kp.2 with
        | ':' :: rest2 =>
          (parseJ fuel .val rest2).bind (fun vp =>
            match skipWs vp.2 with
            | ',' :: rest3 =>
              (parseJ fuel .objItems rest3).bind (fun q =>
                match q.1 with
                | .obj ms => some (.obj ((String.mk kp.1, vp.1) :: ms), q.2)
                | _ => none)
            | '\x7d' :: rest3 => some (.obj [(String.mk kp.1, vp.1)], rest3)
            | _ => none)
        | _ => none)
    | _ => none

/-- Models Python `json.loads`: parse one value, then require only whitespace
to remain (otherwise `json.loads` raises, which this model reports as `none`). -/
def jsonLoads (s : String) : Option JVal :=
  let cs := s.toList
  match parseJ (2 * cs.length + 4) .val cs with
  | some (v, rest) => if skipWs rest = [] then some v else none
  | none => none

/-! ### The two regular expressions of extract weather city

The source hands RAW Python strings containing doubled backslashes to
re.search.  In a raw string a doubled backslash denotes two backslash
characters, which the regex engine reads as the escape for ONE literal
backslash — not as the classes it would read from a single backslash.  The
first pattern therefore demands literal backslash characters around runs of
the letter s, and the second pattern's character class is the ASCII range
0x30..0x5C plus the literal letters u, e, f.  The functions below implement
the leftmost-match, greedy-with-backtracking semantics of re.search for
exactly these two patterns (checked against CPython on a family of inputs
covering every backtracking corner used in the proofs). -/

/-- Case-insensitive match of an ASCII literal at the head of the input,
returning the rest on success. -/
def matchCI : List Char → List Char → Option (List Char)
  | [], cs => some cs
  | _ :: _, [] => none
  | p :: ps, c :: cs => if p.toLower == c.toLower then matchCI ps cs else none

/-- Characters matched by the letter s under IGNORECASE. -/
def sCharCI (c : Char) : Bool := c == 's' || c == 'S'

/-- The trailing capture class of the first pattern: ASCII letters and the
backslash. -/
def enClass (c : Char) : Bool := c.isAlpha || c == '\\'

/-- Attempt the first pattern at the current position.  The trailing greedy
capture takes the maximal class run; when that run is empty, the greedy
s-plus before it surrenders its final character to the capture, provided at
least one character of the run remains (re backtracking). -/
def enTryAt (cs : List Char) : Option String :=
  (matchCI ['w', 'e', 'a', 't', 'h', 'e', 'r'] cs).bind (fun r1 =>
    match r1 with
    | '\\' :: r2 =>
      let s1 := r2.takeWhile sCharCI
      if s1.isEmpty then none else
      (matchCI ['i', 'n'] (r2.drop s1.length)).bind (fun r3 =>
        match r3 with
        | '\\' :: r4 =>
          let s2 := r4.takeWhile sCharCI
          if s2.isEmpty then none else
          let g := (r4.drop s2.length).takeWhile enClass
          if !g.isEmpty then some (String.mk g)
          else if 2 ≤ s2.length then some (String.mk [s2.getLastD 's'])
          else none
        | _ => none)
    | _ => none)

/-- Leftmost search with the first pattern. -/
def enSearch : List Char → Option String
  | [] => none
  | c :: cs =>
    match enTryAt (c :: cs) with
    | some g => some g
    | none => enSearch cs

/-- The repeat class of the second pattern as the engine reads it: the ASCII
range 0x30..0x5C plus the literal letters u, e, f. -/
def zhClass (c : Char) : Bool :=
  (decide (0x30 ≤ c.toNat) && decide (c.toNat ≤ 0x5C)) || c == 'u' || c == 'e' || c == 'f'

/-- After the capture the pattern needs a stretch of non-class characters and
then the literal 天气: scan forward while outside the class. -/
def zhStarScan : List Char → Bool
  | [] => false
  | c :: cs =>
    if isPrefixL ['天', '气'] (c :: cs) then true
    else if zhClass c then false
    else zhStarScan cs

/-- Attempt the second pattern at the current position.  The greedy bounded
repeat can only succeed by taking the whole class run (a shorter repeat
leaves a class character under the negated-class star, and the literal 天 is
not in the class), so the position matches exactly when the class run has
length 2..8 and 天气 occurs after a stretch of non-class characters. -/
def zhTryAt (cs : List Char) : Option String :=
  let run := cs.takeWhile zhClass
  if 2 ≤ run.length && run.length ≤ 8 && zhStarScan (cs.drop run.length) then
    some (String.mk run)
  else none

/-- Leftmost search with the second pattern. -/
def zhSearch : List Char → Option String
  | [] => none
  | c :: cs =>
    match zhTryAt (c :: cs) with
    | some g => some g
    | none => zhSearch cs

/-- The token-stripping loop applied to the second pattern's capture. -/
def stripCityTokens (city : String) : String :=
  ["明天", "今天", "后天", "的", "晚上", "白天", "夜间"].foldl
    (fun c tok => pyReplace c tok "") city

/-- Models `ExecutionAgent._extract_weather_city` (PlannerAgent carries a
textually identical copy): the literal 北京 containment test first, then the
first (English) pattern, then the second (CJK) pattern with token stripping;
`None` when nothing matches. -/
def extract_weather_city (text : String) : Option String :=
  if containsSub text "北京" then some "北京"
  else
    match enSearch text.toList with
    | some g => some (pyStrip g)
    | none =>
      match zhSearch text.toList with
      | some g =>
        let city := pyStrip (stripCityTokens g)
        if city ≠ "" then some city else none
      | none => none

/-! ### Plan, step, message and event models

The modules `app/domain/models/plan.py`, `app/domain/models/message.py` and
`app/domain/models/event.py` are not part of the sources; the structures
below are modelled from the spec (section 3, DATA MODEL). -/

/-- Modelled from the spec: step status, one of PENDING, RUNNING, COMPLETED,
FAILED (`ExecutionStatus` in the source imports). -/
inductive ExecutionStatus where
  | pending
  | running
  | completed
  | failed
deriving DecidableEq, Repr

/-- Modelled from the spec: the step-lifecycle tags carried by StepEvent
(STARTED / COMPLETED / FAILED are the ones this core emits). -/
inductive StepStatus where
  | started
  | completed
  | failed
deriving DecidableEq, Repr

/-- Modelled from the spec: ToolEvent sub-states CALLING / CALLED. -/
inductive ToolStatus where
  | calling
  | called
deriving DecidableEq, Repr

/-- Modelled from the spec: a step has an identifier, a description, a
status, a success flag, optional result text, optional error text and
attachment references. -/
structure StepM where
  id : String := ""
  description : String := ""
  status : ExecutionStatus := .pending
  success : Bool := false
  result : Option String := none
  error : Option String := none
  attachments : List String := []
deriving DecidableEq, Repr

/-- Modelled from the spec: a step is done iff its status is COMPLETED or
FAILED (`Step.is_done` lives in the out-of-src plan model). -/
def StepM.is_done (s : StepM) : Bool :=
  s.status == .completed || s.status == .failed

/-- Modelled from the spec: a plan is a goal, a title, a working-language tag
and an ordered step sequence. -/
structure PlanM where
  goal : String := ""
  title : String := ""
  language : String := ""
  steps : List StepM := []
deriving DecidableEq, Repr

/-- Modelled from the spec: an inbound message with optional text and
attachment references. -/
structure MessageM where
  message : Option String := none
  attachments : List String := []
deriving DecidableEq, Repr

/-- Modelled from the spec: the closed event union exchanged between layers.
ToolEvent carries the sub-state, owning tool name, function name, arguments
(string-valued here, as in every call this core makes) and, once CALLED, the
result data. -/
inductive Event where
  | stepEv (status : StepStatus) (step : StepM)
  | toolEv (status : ToolStatus) (toolName fn : String)
      (args : List (String × String)) (result : Option JVal)
  | messageEv (message : String)
  | errorEv (error : String)
  | waitEv
  | doneEv

/-- String lookup in string-valued tool arguments (`args.get("text", "")`). -/
def argGet (args : List (String × String)) (k : String) : String :=
  match args with
  | [] => ""
  | (k', v) :: rest => if k' = k then v else argGet rest k

/-! ### The weather retrieval pipeline: parsing and formatting -/

/-- Python `cleaned.find("\x7b")` as an option (the source's -1 sentinel is
the `none` case). -/
def firstBraceIdx (s : String) : Option Nat := List.indexOf? '\x7b' s.toList

/-- Python `cleaned.rfind("\x7d")` as an option. -/
def lastBraceIdx (s : String) : Option Nat :=
  (List.indexOf? '\x7d' s.toList.reverse).map (fun k => s.toList.length - 1 - k)

/-- Python slice `s[a:b]` for `a ≤ b`. -/
def strSlice (s : String) (a b : Nat) : String :=
  String.mk ((s.toList.drop a).take (b - a))

/-- Models `ExecutionAgent._parse_weather_json`.  A dict is returned as is; a
non-string or blank input gives `None`; otherwise the whole (stripped) body
is parsed, and if that fails the slice from the first opening brace to the
LAST closing brace is parsed (Python `str.find` / `str.rfind`); `None` when
that also fails.  The function never raises. -/
def parse_weather_json (content : JVal) : Option JVal :=
  if content.isObj then some content
  else
    match content with
    | .str s =>
      if pyStrip s = "" then none
      else
        let cleaned := pyStrip s
        match jsonLoads cleaned with
        | some v => some v
        | none =>
          match firstBraceIdx cleaned, lastBraceIdx cleaned with
          | some start, some stop =>
            if start < stop then jsonLoads (strSlice cleaned start (stop + 1))
            else none
          | _, _ => none
    | _ => none

/-- The wttr.in formatter's Chinese detail lines (mirrors the zh branch of
`_format_weather_result`). -/
def weatherDetailsZh (desc maxT minT rain : JVal) : List String :=
  (if pyTruthy desc then ["天气：" ++ pyStr desc] else []) ++
  (if isNotNone maxT && isNotNone minT then
    ["最高" ++ pyStr maxT ++ "°C，最低" ++ pyStr minT ++ "°C"] else []) ++
  (if isNotNone rain then ["降水概率" ++ pyStr rain ++ "%"] else [])

/-- The wttr.in formatter's English detail lines. -/
def weatherDetailsEn (desc maxT minT rain : JVal) : List String :=
  (if pyTruthy desc then ["Conditions: " ++ pyStr desc] else []) ++
  (if isNotNone maxT && isNotNone minT then
    ["High " ++ pyStr maxT ++ "°C, Low " ++ pyStr minT ++ "°C"] else []) ++
  (if isNotNone rain then ["Chance of rain " ++ pyStr rain ++ "%"] else [])

/-- Models `ExecutionAgent._format_weather_result`: render tomorrow's entry
of a wttr.in payload, omitting absent fields; `None` when the weather list is
missing, empty, or its selected entry is not a dict. -/
def format_weather_result (data : JVal) (city userText : String) : Option String :=
  match jget data "weather" with
  | .arr items =>
    if items.isEmpty then none
    else
      let day := if 1 < items.length then items.getD 1 .null else items.getD 0 .null
      if !day.isObj then none
      else
        let maxT := pyOr (jget day "maxtempC") (jget day "maxtempF")
        let minT := pyOr (jget day "mintempC") (jget day "mintempF")
        let hourly := jget day "hourly"
        let first := match hourly with
          | .arr (h :: _) => h
          | _ => .null
        let desc :=
          if hourly.isArr && pyTruthy hourly && first.isObj then
            match jget first "weatherDesc" with
            | .arr (d :: _) => if d.isObj then jget d "value" else .null
            | _ => .null
          else .null
        let rain :=
          if hourly.isArr && pyTruthy hourly && first.isObj then jget first "chanceofrain"
          else .null
        if containsSub userText "天气" then
          let details := weatherDetailsZh desc maxT minT rain
          let detailText := if details.isEmpty then "已获取天气预报"
                            else String.intercalate "，" details
          some (city ++ "明天" ++ detailText ++ "（来源：wttr.in）")
        else
          let details := weatherDetailsEn desc maxT minT rain
          let detailText := if details.isEmpty then "Forecast available"
                            else String.intercalate ", " details
          some ("Tomorrow in " ++ city ++ ": " ++ detailText ++ " (source: wttr.in)")
  | _ => none

/-- The Chinese condition-code table of `_open_meteo_code_to_text`. -/
def mappingZh : List (Int × String) :=
  [(0, "晴"), (1, "大部晴朗"), (2, "多云"), (3, "阴"), (45, "雾"), (48, "雾凇"),
   (51, "毛毛雨"), (53, "毛毛雨"), (55, "毛毛雨"), (61, "小雨"), (63, "中雨"),
   (65, "大雨"), (71, "小雪"), (73, "中雪"), (75, "大雪"), (80, "阵雨"),
   (81, "阵雨"), (82, "强阵雨"), (95, "雷暴"), (96, "雷暴伴冰雹"), (99, "强雷暴伴冰雹")]

/-- The English condition-code table of `_open_meteo_code_to_text`. -/
def mappingEn : List (Int × String) :=
  [(0, "Clear"), (1, "Mainly clear"), (2, "Partly cloudy"), (3, "Overcast"),
   (45, "Fog"), (48, "Depositing rime fog"), (51, "Drizzle"), (53, "Drizzle"),
   (55, "Drizzle"), (61, "Rain"), (63, "Rain"), (65, "Heavy rain"), (71, "Snow"),
   (73, "Snow"), (75, "Heavy snow"), (80, "Rain showers"), (81, "Rain showers"),
   (82, "Violent rain showers"), (95, "Thunderstorm"), (96, "Thunderstorm with hail"),
   (99, "Thunderstorm with heavy hail")]

/-- Association lookup in a code table. -/
def tableGet (t : List (Int × String)) (k : Int) : Option String :=
  match t with
  | [] => none
  | (k', v) :: rest => if k' = k then some v else tableGet rest k

/-- Python `int(code)` for the payload values reaching the code tables:
integers, numeric strings and booleans convert; everything else raises, which
the source turns into the unknown phrase. -/
def toIntPy : JVal → Option Int
  | .num n => some n
  | .str s => strToInt s
  | .bool b => some (if b then 1 else 0)
  | _ => none

/-- Models `ExecutionAgent._open_meteo_code_to_text`: table-driven phrase for
a provider condition code, falling back to a code-N phrase, per language. -/
def open_meteo_code_to_text (code : JVal) (zh : Bool) : String :=
  match toIntPy code with
  | none => if zh then "未知" else "Unknown"
  | some n =>
    if zh then (tableGet mappingZh n).getD ("天气代码" ++ toString n)
    else (tableGet mappingEn n).getD ("Weather code " ++ toString n)

/-- Python list membership of a string among JSON values: equality with a
non-string element is False. -/
def idxOfStr (ts : List JVal) (s : String) : Option Nat :=
  match ts with
  | [] => none
  | .str s' :: rest => if s' = s then some 0 else (idxOfStr rest s).map Nat.succ
  | _ :: rest => (idxOfStr rest s).map Nat.succ

/-- The index the source selects into the daily series: the position of
`tomorrow` in the time series when the date occurs there, else 1. -/
def tomorrowIdx (ts : List JVal) (tomorrow : String) : Nat :=
  match idxOfStr ts tomorrow with
  | some i => i
  | none => 1

/-- Models `ExecutionAgent._format_open_meteo_result`.  `tomorrow` is the ISO
date the source computes from the current time in UTC+8 (an external input of
the model).  The daily block must hold the time, max, min and code series,
each with at least two entries; the entry for `tomorrow` is selected when the
date occurs in the time series, else index 1.  The source's try/except covers
only the date computation: the subsequent `max_list[tomorrow_idx]`,
`min_list[tomorrow_idx]` and `code_list[tomorrow_idx]` reads are unguarded,
so when the selected index falls outside one of those series the function
raises an uncaught IndexError, modelled as `.error ()`; the precipitation
read alone is length-guarded. -/
def format_open_meteo_result (forecast : JVal) (city userText tomorrow : String) :
    Except Unit (Option String) :=
  match jget forecast "daily" with
  | .obj _ =>
    let daily := jget forecast "daily"
    let times := jget daily "time"
    let maxL := jget daily "temperature_2m_max"
    let minL := jget daily "temperature_2m_min"
    let codeL := jget daily "weather_code"
    let rainL := jget daily "precipitation_probability_max"
    match times, maxL, minL, codeL with
    | .arr ts, .arr mx, .arr mn, .arr cd =>
      if ts.length < 2 || mx.length < 2 || mn.length < 2 || cd.length < 2 then .ok none
      else
        let idx := tomorrowIdx ts tomorrow
        if mx.length ≤ idx || mn.length ≤ idx || cd.length ≤ idx then .error ()
        else
          let maxT := mx.getD idx .null
          let minT := mn.getD idx .null
          let code := cd.getD idx .null
          let rain := match rainL with
            | .arr rs => if idx < rs.length then rs.getD idx .null else .null
            | _ => .null
          let zh := containsSub userText "天气"
          let desc := open_meteo_code_to_text code zh
          if zh then
            let details := ["天气：" ++ desc, "最高" ++ pyStr maxT ++ "°C，最低" ++ pyStr minT ++ "°C"] ++
              (if isNotNone rain then ["降水概率" ++ pyStr rain ++ "%"] else [])
            .ok (some (city ++ "明天" ++ String.intercalate "，" details ++ "（来源：open-meteo.com）"))
          else
            let details := ["Conditions: " ++ desc, "High " ++ pyStr maxT ++ "°C, Low " ++ pyStr minT ++ "°C"] ++
              (if isNotNone rain then ["Precip prob " ++ pyStr rain ++ "%"] else [])
            .ok (some ("Tomorrow in " ++ city ++ ": " ++ String.intercalate ", " details ++ " (source: open-meteo.com)"))
    | _, _, _, _ => .ok none
  | _ => .ok none

/-! ### The external world

Network, tools, the LLM tool-calling loop and the JSON repair parser are
out-of-scope collaborators; they are modelled as oracles.  Calls that the
source may repeat (HTTP requests, tool invocations) are indexed by an
invocation counter, so repeated calls may observe different answers. -/

structure World where
  /-- HTTP GET: the k-th `urllib.request.urlopen` of this step execution, by
  URL; `none` models any network exception (timeout, connection, decode). -/
  http : Nat → String → Option String
  /-- Result data of the k-th direct tool invocation
  (`getattr(result, "data", None)` as a `JVal`, null when absent). -/
  tool : Nat → JVal
  /-- Owning tool's name for a function (the tool registry is outside src). -/
  toolNameOf : String → String
  /-- Modelled from the spec: the generic LLM-driven tool-calling loop
  (`BaseAgent.execute`, out of scope) as a lazily produced event sequence,
  one list per prompt. -/
  execute : String → List Event
  /-- `json_parser.parse` composed with `Step.model_validate` on a message
  body; `none` models a raised parse/validation error. -/
  parseStep : String → Option StepM
  /-- Modelled from the spec: `EXECUTION_PROMPT.format` (the prompt template
  module is not in src); arguments are step description, user text, joined
  attachments, plan language. -/
  promptFmt : String → String → String → String → String
  /-- Tomorrow's ISO date in UTC+8, read from the system clock. -/
  tomorrow : String

/-- The wttr.in request URL for a city. -/
def wttrUrl (city : String) : String :=
  "https://wttr.in/" ++ pquote city ++ "?format=j1"

/-- The open-meteo geocoding URL for a name. -/
def geoUrl (name : String) : String :=
  "https://geocoding-api.open-meteo.com/v1/search?name=" ++ pquote name ++
    "&count=1&language=zh&format=json"

/-- The open-meteo forecast URL for coordinates. -/
def forecastUrl (lat lon : JVal) : String :=
  "https://api.open-meteo.com/v1/forecast?latitude=" ++ pyStr lat ++
    "&longitude=" ++ pyStr lon ++
    "&daily=weather_code,temperature_2m_max,temperature_2m_min,precipitation_probability_max" ++
    "&timezone=Asia%2FShanghai"

/-- Models `ExecutionAgent._fetch_weather_json`: one bounded-timeout GET of
the wttr.in URL (the k-th HTTP call), tolerant-parsed; any network exception
yields `None`.  Returns the value, the next HTTP counter and the URL log. -/
def fetch_weather_json (w : World) (k : Nat) (city : String) :
    Option JVal × Nat × List String :=
  let url := wttrUrl city
  match w.http k url with
  | none => (none, k + 1, [url])
  | some payload => (parse_weather_json (.str payload), k + 1, [url])

/-- First element of a JSON array (guarded nonempty at the call site). -/
def headOfArr : JVal → JVal
  | .arr (x :: _) => x
  | _ => .null

/-- The geocoding loop of `_fetch_open_meteo`: try each name in order; any
exception or unusable answer moves to the next name; stop at the first
payload whose `results` list is nonempty. -/
def geoLoop (w : World) : Nat → List String → Option JVal × Nat × List String
  | k, [] => (none, k, [])
  | k, name :: rest =>
    let url := geoUrl name
    match w.http k url with
    | none =>
      let r := geoLoop w (k + 1) rest
      (r.1, r.2.1, url :: r.2.2)
    | some payload =>
      let data := (parse_weather_json (.str payload)).getD .null
      if pyTruthy data && (jget data "results").isArr && pyTruthy (jget data "results") then
        (some (headOfArr (jget data "results")), k + 1, [url])
      else
        let r := geoLoop w (k + 1) rest
        (r.1, r.2.1, url :: r.2.2)

/-- Models `ExecutionAgent._fetch_open_meteo`: geocode the city (trying the
literal name, then the alias Beijing when the city is the well-known token
北京), then fetch the forecast for the resolved coordinates; the forecast
must parse truthy and contain a daily block, and is returned with the
geocoding entry attached under the key _geocoding. -/
def fetch_open_meteo (w : World) (k : Nat) (city : String) :
    Option JVal × Nat × List String :=
  let names := [city] ++ (if city = "北京" then ["Beijing"] else [])
  let g := geoLoop w k names
  match g.1 with
  | none => (none, g.2.1, g.2.2)
  | some results =>
    if !results.isObj then (none, g.2.1, g.2.2)
    else
      let lat := jget results "latitude"
      let lon := jget results "longitude"
      if !isNotNone lat || !isNotNone lon then (none, g.2.1, g.2.2)
      else
        let furl := forecastUrl lat lon
        match w.http g.2.1 furl with
        | none => (none, g.2.1 + 1, g.2.2 ++ [furl])
        | some payload =>
          match parse_weather_json (.str payload) with
          | some (.obj kvs) =>
            if !pyTruthy (.obj kvs) || !jHasKey (.obj kvs) "daily" then
              (none, g.2.1 + 1, g.2.2 ++ [furl])
            else
              (some (.obj (objInsert kvs "_geocoding" results)), g.2.1 + 1, g.2.2 ++ [furl])
          | _ => (none, g.2.1 + 1, g.2.2 ++ [furl])

/-- Models `ExecutionAgent._call_tool`: a direct tool invocation, surfaced to
the caller as a CALLING / CALLED event pair; returns the result data, the
event pair and the next tool counter. -/
def call_tool (w : World) (t : Nat) (fn : String) (args : List (String × String)) :
    JVal × List Event × Nat :=
  (w.tool t,
   [.toolEv .calling (w.toolNameOf fn) fn args none,
    .toolEv .called (w.toolNameOf fn) fn args (some (w.tool t))],
   t + 1)

/-- The fixed aggregate failure message of the weather pipeline. -/
def weatherFailText : String := "无法获取天气数据"

/-- `self._format_open_meteo_result(om, city, user_text) if om else None`;
the formatter's uncaught IndexError propagates (`.error ()`). -/
def omResultText (w : World) (om : Option JVal) (city userText : String) :
    Except Unit (Option String) :=
  match om with
  | some f => if pyTruthy f then format_open_meteo_result f city userText w.tomorrow else .ok none
  | none => .ok none

/-- `self._format_weather_result(data, city, user_text) if data else None`. -/
def dataResultText (data : Option JVal) (city userText : String) : Option String :=
  match data with
  | some d => if pyTruthy d then format_weather_result d city userText else none
  | none => none

/-- Result of a weather-pipeline run: the yielded events (those delivered
before any raise), the step state when the generator finished or raised, the
ordered URL log of the HTTP requests performed, and whether the run aborted
with a propagated exception (the secondary formatter's uncaught
IndexError). -/
structure WRun where
  yields : List Event
  finalStep : StepM
  log : List String
  raised : Bool

/-- The failure tail of `_execute_weather_with_browser`: mark FAILED, retry
the secondary provider once, and either complete from it or emit the
aggregate StepEvent(FAILED) + ErrorEvent pair; a formatter raise aborts
the generator before any terminal event. -/
def weatherFailurePhase (w : World) (step1 : StepM) (userText city : String)
    (k : Nat) (evs : List Event) (log : List String) : WRun :=
  let stepF := {step1 with status := .failed}
  let om := fetch_open_meteo w k city
  match omResultText w om.1 city userText with
  | .error _ => ⟨evs, stepF, log ++ om.2.2, true⟩
  | .ok (some rt) =>
    if rt ≠ "" then
      let stepC := {stepF with status := .completed, success := true, result := some rt}
      ⟨evs ++ [.stepEv .completed stepC, .messageEv rt], stepC, log ++ om.2.2, false⟩
    else
      let stepE := {stepF with error := some weatherFailText}
      ⟨evs ++ [.stepEv .failed stepE, .errorEv weatherFailText], stepE, log ++ om.2.2, false⟩
  | .ok none =>
    let stepE := {stepF with error := some weatherFailText}
    ⟨evs ++ [.stepEv .failed stepE, .errorEv weatherFailText], stepE, log ++ om.2.2, false⟩

/-- The browser-mediated portion of `_execute_weather_with_browser`, entered
unconditionally unless the early secondary-provider block already returned:
navigate, re-fetch in page, fall back to reading the page, fall back to one
more direct fetch, format; on failure hand over to the failure tail.  (The
page-read tool result and the direct re-fetch are bound outside their guards
— the oracles are pure, so this is observationally the transcription of the
source's conditional calls: their events and log entries are only appended
under the original conditions.) -/
def weatherBrowserPhase (w : World) (step1 : StepM) (userText city : String)
    (k t : Nat) (preEvs : List Event) (preLog : List String) : WRun :=
  let nav := call_tool w t "browser_navigate" [("url", wttrUrl city)]
  let js := "return fetch(\x27https://wttr.in/" ++ pquote city ++
    "?format=j1\x27).then(r => r.text());"
  let cons := call_tool w (t + 1) "browser_console_exec" [("javascript", js)]
  let consoleData := cons.1
  let data1 := parse_weather_json (if consoleData.isObj then jget consoleData "result" else .null)
  let vw := call_tool w (t + 2) "browser_view" []
  let viewData := vw.1
  let data2 :=
    if pyTruthyO data1 then data1
    else parse_weather_json (if viewData.isObj then jget viewData "content" else .null)
  let viewEvs := if pyTruthyO data1 then [] else vw.2.1
  let rf := fetch_weather_json w k city
  let data := if pyTruthyO data2 then data2 else rf.1
  let rfLog := if pyTruthyO data2 then [] else rf.2.2
  let rfK := if pyTruthyO data2 then k else rf.2.1
  let evs := preEvs ++ nav.2.1 ++ cons.2.1 ++ viewEvs
  let log := preLog ++ rfLog
  match dataResultText data city userText with
  | some rt =>
    if rt ≠ "" then
      let stepC := {step1 with status := .completed, success := true, result := some rt}
      ⟨evs ++ [.stepEv .completed stepC, .messageEv rt], stepC, log, false⟩
    else
      weatherFailurePhase w step1 userText city rfK evs log
  | none => weatherFailurePhase w step1 userText city rfK evs log

/-- Models `ExecutionAgent._execute_weather_with_browser`: mark RUNNING, emit
StepEvent(STARTED), notify the user, fetch the primary source directly; only
when that fails, consult the secondary provider and stop on its success;
otherwise proceed to the browser-mediated phase (even when the primary fetch
succeeded — its payload is discarded).  A raise of the secondary formatter
(at either call site) aborts the generator with the events yielded so far. -/
def weatherRun (w : World) (step0 : StepM) (userText city : String) : WRun :=
  let step1 : StepM := {step0 with status := .running}
  let notifyText :=
    if containsSub userText "天气" then
      "我将查询 " ++ city ++ " 明天的天气，并在必要时切换数据源。"
    else
      "I will fetch tomorrow\x27s forecast for " ++ city ++ ", switching source if needed."
  let nt := call_tool w 0 "message_notify_user" [("text", notifyText)]
  let preEvs := Event.stepEv .started step1 :: nt.2.1
  let f1 := fetch_weather_json w 0 city
  if !pyTruthyO f1.1 then
    let om := fetch_open_meteo w f1.2.1 city
    match omResultText w om.1 city userText with
    | .error _ => ⟨preEvs, step1, f1.2.2 ++ om.2.2, true⟩
    | .ok (some rt) =>
      if rt ≠ "" then
        let stepC := {step1 with status := .completed, success := true, result := some rt}
        ⟨preEvs ++ [.stepEv .completed stepC, .messageEv rt], stepC, f1.2.2 ++ om.2.2, false⟩
      else
        weatherBrowserPhase w step1 userText city om.2.1 1 preEvs (f1.2.2 ++ om.2.2)
    | .ok none =>
      weatherBrowserPhase w step1 userText city om.2.1 1 preEvs (f1.2.2 ++ om.2.2)
  else
    weatherBrowserPhase w step1 userText city f1.2.1 1 preEvs f1.2.2

/-! ### The step executor state machine -/

/-- One yield of an `execute_step` run: the event, the restriction-flag value
at that yield, and whether the yield statement lies inside the try block
(which decides whether the finally clause runs when the consumer closes the
generator suspended at that yield). -/
structure Yld where
  ev : Event
  flagAt : Bool
  inTry : Bool

/-- How a run of `execute_step` ended: normal exhaustion, suspension via
WaitEvent, or a propagated exception (parse/validation error). -/
inductive Outcome where
  | normal
  | waited
  | raised
deriving DecidableEq, Repr

/-- A full run of `execute_step`: the yields in order, the final step state,
the restriction flag after the generator finished, the outcome, and the URL
log of HTTP requests performed. -/
structure Run where
  yields : List Yld
  finalStep : StepM
  finalFlag : Bool
  outcome : Outcome
  log : List String

/-- The reinterpretation loop of `execute_step` (the body of
`async for event in self.execute(message)`): ErrorEvent marks the step
FAILED and is forwarded behind a StepEvent(FAILED); MessageEvent marks it
COMPLETED, repair-parses the body (an unparsable body raises), copies the
parsed fields and emits StepEvent(COMPLETED) plus a derived MessageEvent
when the result text is non-blank; the ask-user tool call becomes a
MessageEvent on CALLING and a terminating WaitEvent on CALLED; everything
else is forwarded unchanged. -/
def procInner (w : World) : StepM → List Event → List Event × StepM × Outcome
  | step, [] => ([], step, .normal)
  | step, e :: rest =>
    match e with
    | .errorEv msg =>
      let step' := {step with status := .failed, error := some msg}
      let r := procInner w step' rest
      (Event.stepEv .failed step' :: e :: r.1, r.2)
    | .messageEv m =>
      match w.parseStep m with
      | none => ([], {step with status := .completed}, .raised)
      | some newStep =>
        let step' : StepM :=
          { step with
            status := .completed
            success := newStep.success
            result := newStep.result
            attachments := newStep.attachments }
        let emitted := Event.stepEv .completed step' ::
          (match step'.result with
           | some res => if res ≠ "" then [Event.messageEv res] else []
           | none => [])
        let r := procInner w step' rest
        (emitted ++ r.1, r.2)
    | .toolEv st _ fn args _ =>
      if fn = "message_ask_user" then
        match st with
        | .calling =>
          let r := procInner w step rest
          (Event.messageEv (argGet args "text") :: r.1, r.2)
        | .called => ([Event.waitEv], step, .waited)
      else
        let r := procInner w step rest
        (e :: r.1, r.2)
    | _ =>
      let r := procInner w step rest
      (e :: r.1, r.2)

/-- The canonical rewritten description used when the weather intent is
recognized but no city is extractable. -/
def weatherRewriteDesc : String :=
  "使用浏览器打开 https://wttr.in/<city>?format=j1 并从页面内容提取明天的天气预报"

/-- The force-weather test at the top of `execute_step`. -/
def forceWeather (userText stepDescription : String) : Bool :=
  containsSub userText "天气" || containsSub (pyLower userText) "weather" ||
  containsSub stepDescription "天气" || containsSub (pyLower stepDescription) "weather"

/-- The EXECUTION_PROMPT instantiation the generic path hands to the tool
loop (the description is rewritten on the force-weather path). -/
def genericPrompt (w : World) (plan : PlanM) (step0 : StepM) (msg : MessageM) : String :=
  let userText := msg.message.getD ""
  let fw := forceWeather userText step0.description
  w.promptFmt (if fw then weatherRewriteDesc else step0.description) userText
    (String.intercalate "\n" msg.attachments) plan.language

/-- Models `ExecutionAgent.execute_step`.  `flag0` is the value of the
restriction flag at entry.  With an extractable city the weather pipeline
runs (outside any try, flag untouched; a pipeline raise propagates to the
caller).  Otherwise, on the force-weather path the description is rewritten
and the flag set BEFORE the first yield; StepEvent(STARTED) is yielded
outside the try block; the reinterpretation loop runs inside the try; the
finally clause clears the flag on every exit of the try (normal,
wait-return, exception); after a normal exhaustion the step status is
forced to COMPLETED without a further event. -/
def execStepRun (w : World) (plan : PlanM) (step0 : StepM) (msg : MessageM)
    (flag0 : Bool) : Run :=
  let stepDescription := step0.description
  let userText := msg.message.getD ""
  let fw := forceWeather userText stepDescription
  let cityOpt := if fw then extract_weather_city userText else none
  match cityOpt with
  | some city =>
    let wr := weatherRun w step0 userText city
    ⟨wr.yields.map (fun e => ⟨e, flag0, false⟩), wr.finalStep, flag0,
     if wr.raised then .raised else .normal, wr.log⟩
  | none =>
    let flag1 := if fw then true else flag0
    let stepR := {step0 with status := .running}
    let r := procInner w stepR (w.execute (genericPrompt w plan step0 msg))
    let finalStep := match r.2.2 with
      | .normal => {r.2.1 with status := .completed}
      | _ => r.2.1
    ⟨⟨Event.stepEv .started stepR, flag1, false⟩ :: r.1.map (fun e => ⟨e, flag1, true⟩),
     finalStep, false, r.2.2, []⟩

/-- The restriction-flag value after the consumer consumes `n` events of a
run and then closes the generator: Python raises GeneratorExit at the
suspended yield, and the finally clause (which clears the flag) runs exactly
when that yield lies inside the try block.  Consuming zero events never
starts the generator body; consuming past the last yield finishes the run
normally. -/
def flagAfterAbandon (r : Run) (flag0 : Bool) (n : Nat) : Bool :=
  if n = 0 then flag0
  else
    match r.yields.get? (n - 1) with
    | none => r.finalFlag
    | some y => if y.inTry then false else y.flagAt

/-- The step classification of `execute_step` as a pure function (the
tagged-variant formulation of the spec's design notes): Generic when the
weather intent is absent, ShortcutWithKey when a city is extractable from
the user text, ShortcutNoKey otherwise. -/
inductive StepClass where
  | generic
  | shortcutWithKey (city : String)
  | shortcutNoKey
deriving DecidableEq, Repr

/-- Classification as `execute_step` computes it. -/
def classifyStep (userText stepDescription : String) : StepClass :=
  if forceWeather userText stepDescription then
    match extract_weather_city userText with
    | some c => .shortcutWithKey c
    | none => .shortcutNoKey
  else .generic

/-! ### Event predicates used by the theorems -/

def isTerminalStepEv : Event → Bool
  | .stepEv .completed _ => true
  | .stepEv .failed _ => true
  | _ => false

def isStepEv : Event → Bool
  | .stepEv _ _ => true
  | _ => false

def isWaitEv : Event → Bool
  | .waitEv => true
  | _ => false

def isErrorEv : Event → Bool
  | .errorEv _ => true
  | _ => false

def isNavEv : Event → Bool
  | .toolEv _ _ fn _ _ => fn == "browser_navigate"
  | _ => false

def isViewEv : Event → Bool
  | .toolEv _ _ fn _ _ => fn == "browser_view"
  | _ => false

def isInnerErr : Event → Bool
  | .errorEv _ => true
  | _ => false

def isInnerMsg : Event → Bool
  | .messageEv _ => true
  | _ => false

def isAskUserCalled : Event → Bool
  | .toolEv .called _ fn _ _ => fn == "message_ask_user"
  | _ => false

/-! ### The planner: sanitization and plan reconciliation -/

/-- Models `PlannerAgent._is_weather_query`. -/
def is_weather_query (text : String) : Bool :=
  if pyStrip text = "" then false
  else containsSub text "天气" || containsSub (pyLower text) "weather"

/-- The single canonical weather step the planner substitutes (raw city, no
percent-encoding, as in the source f-string). -/
def canonicalWeatherStep (city : String) : JVal :=
  .obj [("id", .str "1"),
        ("description", .str ("使用浏览器工具打开 https://wttr.in/" ++ city ++
          "?format=j1 并调用 browser_view 提取明天的天气预报"))]

/-- Models `PlannerAgent._sanitize_steps`: on a dict response carrying a list
of steps, keep only dict items with a non-blank string description (trimmed;
the id kept when it is a non-blank string, trimmed); when the user message is
a weather query, replace the whole list by the single canonical step for the
extracted city, defaulting to 北京. -/
def sanitize_steps (parsed : JVal) (userMessage : String := "") : JVal :=
  match parsed with
  | .obj kvs =>
    match jget (.obj kvs) "steps" with
    | .arr steps =>
      let cleaned := steps.filterMap (fun item =>
        match item with
        | .obj _ =>
          match jget item "description" with
          | .str d =>
            if pyStrip d = "" then none
            else
              let base := [("description", JVal.str (pyStrip d))]
              let withId := match jget item "id" with
                | .str sid =>
                  if pyStrip sid = "" then base else base ++ [("id", JVal.str (pyStrip sid))]
                | _ => base
              some (JVal.obj withId)
          | _ => none
        | _ => none)
      let finalSteps :=
        if is_weather_query userMessage then
          let city := match extract_weather_city userMessage with
            | some c => if c ≠ "" then c else "北京"
            | none => "北京"
          [canonicalWeatherStep city]
        else cleaned
      .obj (objInsert kvs "steps" (.arr finalSteps))
    | _ => parsed
  | _ => parsed

/-- Modelled from the spec: `Step.model_validate` on a candidate step dict
(id and description; a fresh step is PENDING with no outcome fields). -/
def stepOfJson (v : JVal) : StepM :=
  { id := match jget v "id" with | .str s => s | _ => ""
    description := match jget v "description" with | .str s => s | _ => "" }

/-- The candidate step list carried by a (sanitized) plan response. -/
def stepsOfJson (v : JVal) : List StepM :=
  match jget v "steps" with
  | .arr items => items.map stepOfJson
  | _ => []

/-- Index of the first step that is not done (the `enumerate` loop of
`update_plan`). -/
def first_pending_index (steps : List StepM) : Option Nat :=
  match steps with
  | [] => none
  | s :: rest =>
    if !s.is_done then some 0
    else (first_pending_index rest).map Nat.succ

/-- The splice of `PlannerAgent.update_plan`: keep the prefix before the
first pending step and replace everything from there on by the new steps;
when no step is pending the list is left unchanged. -/
def update_plan_steps (cur newSteps : List StepM) : List StepM :=
  match first_pending_index cur with
  | none => cur
  | some i => cur.take i ++ newSteps

/-- Models the MessageEvent branch of `PlannerAgent.update_plan`: sanitize
the parsed response (this path passes no user message, so the weather
override is inert), validate the candidate steps, and splice them into the
live plan. -/
def update_plan_on_message (plan : PlanM) (parsed : JVal) : PlanM :=
  let newSteps := stepsOfJson (sanitize_steps parsed "")
  {plan with steps := update_plan_steps plan.steps newSteps}

/-! ### Spec-side definitions for the refinement claims -/

/-- Depth-counting scan for a balanced brace span, starting at an opening
brace; returns the span including both braces. -/
def balancedFrom : Nat → List Char → List Char → Option (List Char)
  | _, _, [] => none
  | depth, acc, c :: rest =>
    if c == '\x7b' then balancedFrom (depth + 1) (acc ++ [c]) rest
    else if c == '\x7d' then
      if depth == 1 then some (acc ++ [c])
      else if depth == 0 then none
      else balancedFrom (depth - 1) (acc ++ [c]) rest
    else balancedFrom depth (acc ++ [c]) rest

/-- Modelled from the spec (claim C7): the first balanced top-level object
substring of a body — from the first opening brace to its matching closing
brace. -/
def firstBalancedObject (s : String) : Option String :=
  let cs := s.toList.dropWhile (fun c => c != '\x7b')
  (balancedFrom 0 [] cs).map String.mk

/-- Modelled from the spec (claim C7): the tolerant parse as the spec words
it — the whole body first, else the first balanced top-level object
substring. -/
def specTolerantParse (s : String) : Option JVal :=
  match jsonLoads (pyStrip s) with
  | some v => some v
  | none => (firstBalancedObject (pyStrip s)).bind jsonLoads

/-- A CJK character (the block the source's own patterns and messages use). -/
def isCJK (c : Char) : Bool := decide (0x4E00 ≤ c.toNat) && decide (c.toNat ≤ 0x9FFF)

/-- Modelled from the spec (claim C4): the binary working-language choice the
formatters implement — Chinese when the inbound text contains 天气, else the
default English family; a rendered message is in the Chinese family when it
contains CJK characters and in the English family when it contains none. -/
def inWorkingLanguageFamily (userText msg : String) : Bool :=
  if containsSub userText "天气" then msg.toList.any isCJK
  else !(msg.toList.any isCJK)

/-! ### Shared helper lemmas -/

theorem lookupJ_objInsert (kvs : List (String × JVal)) (k : String) (v : JVal) :
    lookupJ (objInsert kvs k v) k = some v := by
  induction kvs with
  | nil => simp [objInsert, lookupJ]
  | cons hd tl ih =>
    obtain ⟨k', v'⟩ := hd
    by_cases h : k' = k
    · simp [objInsert, lookupJ, h]
    · simp [objInsert, lookupJ, h, ih]

theorem jget_objInsert (kvs : List (String × JVal)) (k : String) (v : JVal) :
    jget (.obj (objInsert kvs k v)) k = v := by
  simp [jget, lookupJ_objInsert]

theorem first_pending_index_eq_none (steps : List StepM) :
    first_pending_index steps = none ↔ ∀ s ∈ steps, s.is_done = true := by
  induction steps with
  | nil => simp [first_pending_index]
  | cons hd tl ih =>
    by_cases h : hd.is_done
    · simp [first_pending_index, h, ih]
    · simp [first_pending_index, h]

theorem first_pending_index_lt (steps : List StepM) (i : Nat)
    (h : first_pending_index steps = some i) : i < steps.length := by
  induction steps generalizing i with
  | nil => simp [first_pending_index] at h
  | cons hd tl ih =>
    rw [first_pending_index] at h
    by_cases hd' : hd.is_done = true
    · simp only [hd', Bool.not_true, Bool.false_eq_true, if_false,
        Option.map_eq_some'] at h
      obtain ⟨j, hj, rfl⟩ := h
      have := ih j hj
      simp only [List.length_cons]
      omega
    · rw [Bool.not_eq_true] at hd'
      simp only [hd', Bool.not_false, if_true, Option.some.injEq] at h
      subst h
      simp

theorem first_pending_index_take_done (steps : List StepM) (i : Nat)
    (h : first_pending_index steps = some i) :
    ∀ s ∈ steps.take i, s.is_done = true := by
  induction steps generalizing i with
  | nil => simp
  | cons hd tl ih =>
    rw [first_pending_index] at h
    by_cases hd' : hd.is_done = true
    · simp only [hd', Bool.not_true, Bool.false_eq_true, if_false,
        Option.map_eq_some'] at h
      obtain ⟨j, hj, rfl⟩ := h
      intro s hs
      rw [List.take_succ_cons, List.mem_cons] at hs
      rcases hs with rfl | hs
      · exact hd'
      · exact ih j hj s hs
    · rw [Bool.not_eq_true] at hd'
      simp only [hd', Bool.not_false, if_true, Option.some.injEq] at h
      subst h
      simp

/-! ### Claim theorems -/

/-- C5.  `update_plan` replaces every step from the first not-done index
onward with the sanitized candidate list, preserves the (all done) earlier
steps verbatim, and leaves an all-done plan's step sequence identical. -/
theorem update_plan_splice (plan : PlanM) (parsed : JVal) :
    ((∀ s ∈ plan.steps, s.is_done = true) → update_plan_on_message plan parsed = plan) ∧
    (∀ i, first_pending_index plan.steps = some i →
      (update_plan_on_message plan parsed).steps =
        plan.steps.take i ++ stepsOfJson (sanitize_steps parsed "") ∧
      (update_plan_on_message plan parsed).steps.take i = plan.steps.take i ∧
      ∀ s ∈ plan.steps.take i, s.is_done = true) := by
  constructor
  · intro h
    have hn : first_pending_index plan.steps = none :=
      (first_pending_index_eq_none plan.steps).mpr h
    simp [update_plan_on_message, update_plan_steps, hn]
  · intro i hi
    have hlen : ((plan.steps.take i).length = i) := by
      have := first_pending_index_lt plan.steps i hi
      simp [List.length_take]
      omega
    refine ⟨?_, ?_, first_pending_index_take_done plan.steps i hi⟩
    · simp [update_plan_on_message, update_plan_steps, hi]
    · simp only [update_plan_on_message, update_plan_steps, hi]
      exact List.take_left' hlen

/-- Witness for C5: the spec's own example — a done step A, pending B and C,
candidate list with the single step (id 2, description X); reconciliation
keeps A verbatim and replaces B and C. -/
theorem update_plan_splice_witness :
    (∀ s ∈ ([⟨"1", "A", .completed, true, none, none, []⟩,
              ⟨"2", "B", .pending, false, none, none, []⟩,
              ⟨"3", "C", .pending, false, none, none, []⟩] : List StepM), s.is_done = true → True) ∧
    first_pending_index ([⟨"1", "A", .completed, true, none, none, []⟩,
              ⟨"2", "B", .pending, false, none, none, []⟩,
              ⟨"3", "C", .pending, false, none, none, []⟩] : List StepM) = some 1 ∧
    (update_plan_on_message
        { goal := "g", title := "t", language := "en",
          steps := [⟨"1", "A", .completed, true, none, none, []⟩,
                    ⟨"2", "B", .pending, false, none, none, []⟩,
                    ⟨"3", "C", .pending, false, none, none, []⟩] }
        (.obj [("steps", .arr [.obj [("id", .str "2"), ("description", .str "X")]])])).steps =
      [⟨"1", "A", .completed, true, none, none, []⟩,
       ⟨"2", "X", .pending, false, none, none, []⟩] := by
  refine ⟨fun _ _ _ => trivial, rfl, ?_⟩
  have h := (update_plan_splice
    { goal := "g", title := "t", language := "en",
      steps := [⟨"1", "A", .completed, true, none, none, []⟩,
                ⟨"2", "B", .pending, false, none, none, []⟩,
                ⟨"3", "C", .pending, false, none, none, []⟩] }
    (.obj [("steps", .arr [.obj [("id", .str "2"), ("description", .str "X")]])])).2 1 rfl
  exact h.1.trans (by rfl)

/-- C6.  Step classification is a pure function of the texts in which the
literal token 北京 takes precedence over both looser patterns even when they
also match, the first (English) pattern beats the second (CJK) pattern, and
a step with no recognized intent is generic. -/
theorem classification_tiebreak (text userText stepDescription : String) :
    (containsSub text "北京" = true → extract_weather_city text = some "北京") ∧
    (containsSub text "北京" = false → ∀ g, enSearch text.toList = some g →
      extract_weather_city text = some (pyStrip g)) ∧
    (containsSub text "北京" = false → enSearch text.toList = none →
      zhSearch text.toList = none → extract_weather_city text = none) ∧
    (forceWeather userText stepDescription = false →
      classifyStep userText stepDescription = .generic) ∧
    (forceWeather userText stepDescription = true →
      extract_weather_city userText = none →
      classifyStep userText stepDescription = .shortcutNoKey) := by
  refine ⟨fun h => by simp [extract_weather_city, h], ?_, ?_, ?_, ?_⟩
  · intro h g hg
    have hg' : enSearch text.data = some g := hg
    simp [extract_weather_city, h, hg']
  · intro h h1 h2
    have h1' : enSearch text.data = none := h1
    have h2' : zhSearch text.data = none := h2
    simp [extract_weather_city, h, h1', h2']
  · intro h
    simp [classifyStep, h]
  · intro h1 h2
    simp [classifyStep, h1, h2]

/-- Witness for C6: on 北京 weather-backslash-s-in-backslash-s-Paris both the
literal token and the English pattern match and the literal wins; on the
second input both loose patterns match and the English one wins; a
no-intent text is classified generic. -/
theorem classification_tiebreak_witness :
    (containsSub "北京 weather\\sin\\sParis" "北京" = true ∧
     enSearch ("北京 weather\\sin\\sParis").toList = some "Paris" ∧
     extract_weather_city "北京 weather\\sin\\sParis" = some "北京") ∧
    (containsSub "weather\\sin\\sAB 天气" "北京" = false ∧
     enSearch ("weather\\sin\\sAB 天气").toList = some "AB" ∧
     zhSearch ("weather\\sin\\sAB 天气").toList = some "AB" ∧
     extract_weather_city "weather\\sin\\sAB 天气" = some "AB") ∧
    (forceWeather "hello" "do the thing" = false ∧
     classifyStep "hello" "do the thing" = .generic) := by
  refine ⟨⟨rfl, rfl, (classification_tiebreak "北京 weather\\sin\\sParis" "" "").1 rfl⟩,
          ⟨rfl, rfl, rfl, ?_⟩,
          ⟨rfl, (classification_tiebreak "" "hello" "do the thing").2.2.2.1 rfl⟩⟩
  exact ((classification_tiebreak "weather\\sin\\sAB 天气" "" "").2.1 rfl "AB" rfl).trans rfl

/-- C9.  In plan creation, whenever the inbound message matches the weather
intent, the sanitized step list is replaced by exactly one canonical step
naming the extracted city, defaulting to 北京. -/
theorem plan_creation_weather_override (kvs : List (String × JVal))
    (steps : List JVal) (userMessage : String)
    (hsteps : jget (.obj kvs) "steps" = .arr steps)
    (hw : is_weather_query userMessage = true) :
    jget (sanitize_steps (.obj kvs) userMessage) "steps" =
      .arr [canonicalWeatherStep
        (match extract_weather_city userMessage with
         | some c => if c ≠ "" then c else "北京"
         | none => "北京")] := by
  rw [sanitize_steps]
  simp only [hsteps, hw, if_true]
  exact jget_objInsert kvs "steps" _

/-- Witness for C9: the message 天气 is a weather query with no extractable
city, so a freshly created plan's steps collapse to the single canonical
北京 step. -/
theorem plan_creation_weather_override_witness :
    jget (.obj [("goal", JVal.str "g"), ("steps", JVal.arr [])]) "steps" = .arr [] ∧
    is_weather_query "天气" = true ∧
    extract_weather_city "天气" = none ∧
    jget (sanitize_steps (.obj [("goal", JVal.str "g"), ("steps", JVal.arr [])]) "天气") "steps" =
      .arr [canonicalWeatherStep "北京"] := by
  refine ⟨rfl, rfl, rfl, ?_⟩
  exact (plan_creation_weather_override [("goal", JVal.str "g"), ("steps", JVal.arr [])]
    [] "天气" rfl rfl).trans rfl

/-- C7, counterexample.  On the body consisting of an object followed by a
stray closing brace, the whole-body parse fails, the spec's first balanced
top-level object parses, but the code's first-brace-to-last-brace slice does
not: the tolerant parse returns nothing where the claim promises a value. -/
theorem tolerant_parse_counterexample :
    parse_weather_json (.str "\x7b\"a\": 1\x7d \x7d") = none ∧
    specTolerantParse "\x7b\"a\": 1\x7d \x7d" = some (.obj [("a", .num 1)]) ∧
    jsonLoads "\x7b\"a\": 1\x7d \x7d" = none := by
  exact ⟨rfl, rfl, rfl⟩

/-- C7, amended.  The tolerant parse first attempts the whole stripped body;
when that fails it parses the slice from the FIRST opening brace to the LAST
closing brace (not the first balanced object), and when that span is absent
or degenerate, or its parse fails too, it yields nothing rather than
raising. -/
theorem tolerant_parse_amended (s : String) :
    (∀ v, jsonLoads (pyStrip s) = some v → parse_weather_json (.str s) = some v) ∧
    (∀ i j, jsonLoads (pyStrip s) = none → firstBraceIdx (pyStrip s) = some i →
      lastBraceIdx (pyStrip s) = some j → i < j →
      parse_weather_json (.str s) = jsonLoads (strSlice (pyStrip s) i (j + 1))) ∧
    (jsonLoads (pyStrip s) = none → firstBraceIdx (pyStrip s) = none →
      parse_weather_json (.str s) = none) ∧
    (∀ i j, jsonLoads (pyStrip s) = none → firstBraceIdx (pyStrip s) = some i →
      lastBraceIdx (pyStrip s) = some j → ¬ i < j →
      parse_weather_json (.str s) = none) := by
  have hempty : jsonLoads "" = none := rfl
  refine ⟨?_, ?_, ?_, ?_⟩
  · intro v hv
    by_cases hs : pyStrip s = ""
    · rw [hs] at hv
      rw [hempty] at hv
      exact absurd hv (by simp)
    · simp [parse_weather_json, JVal.isObj, hs, hv]
  · intro i j h0 hi hj hij
    by_cases hs : pyStrip s = ""
    · rw [hs] at hi
      simp [firstBraceIdx] at hi
    · simp [parse_weather_json, JVal.isObj, hs, h0, hi, hj, hij]
  · intro h0 hi
    by_cases hs : pyStrip s = ""
    · simp [parse_weather_json, JVal.isObj, hs]
    · simp [parse_weather_json, JVal.isObj, hs, h0, hi]
  · intro i j h0 hi hj hij
    by_cases hs : pyStrip s = ""
    · simp [parse_weather_json, JVal.isObj, hs]
    · simp [parse_weather_json, JVal.isObj, hs, h0, hi, hj, hij]

/-- Witness for C7 amended: a body with junk around an object fails the
whole-body parse and succeeds on the brace-to-brace slice. -/
theorem tolerant_parse_amended_witness :
    jsonLoads (pyStrip "xx \x7b\"a\": 1\x7d yy") = none ∧
    firstBraceIdx (pyStrip "xx \x7b\"a\": 1\x7d yy") = some 3 ∧
    lastBraceIdx (pyStrip "xx \x7b\"a\": 1\x7d yy") = some 10 ∧
    parse_weather_json (.str "xx \x7b\"a\": 1\x7d yy") = some (.obj [("a", .num 1)]) := by
  refine ⟨rfl, rfl, rfl, ?_⟩
  exact ((tolerant_parse_amended "xx \x7b\"a\": 1\x7d yy").2.1 3 10 rfl rfl rfl
    (by omega)).trans rfl

/-- A secondary-provider payload with exactly one (complete) forecast day. -/
def oneDayForecast : JVal :=
  .obj [("daily", .obj
    [("time", .arr [.str "2026-10-13"]),
     ("temperature_2m_max", .arr [.num 10]),
     ("temperature_2m_min", .arr [.num 2]),
     ("weather_code", .arr [.num 3]),
     ("precipitation_probability_max", .arr [.num 40])])]

/-- A secondary-provider payload whose time series has three days but whose
temperature and code series have two: every series passes the two-entry
guard, yet the date `d2` sits at index 2 of the time series, beyond the
shorter series. -/
def raggedForecast : JVal :=
  .obj [("daily", .obj
    [("time", .arr [.str "d0", .str "d1", .str "d2"]),
     ("temperature_2m_max", .arr [.num 10, .num 11]),
     ("temperature_2m_min", .arr [.num 1, .num 2]),
     ("weather_code", .arr [.num 0, .num 0])])]

/-- A complete two-day secondary payload without the precipitation series. -/
def twoDayForecast : JVal :=
  .obj [("daily", .obj
    [("time", .arr [.str "d0", .str "d1"]),
     ("temperature_2m_max", .arr [.num 10, .num 11]),
     ("temperature_2m_min", .arr [.num 2, .num 3]),
     ("weather_code", .arr [.num 3, .num 61])])]

/-- C8, counterexample.  Two payloads with forecast entries — not "no
forecast entries at all" — still fail the operation: a single fully
populated forecast day is rejected (the formatter requires at least two
daily entries), and a ragged payload whose time series holds tomorrow at an
index beyond the shorter temperature and code series raises an uncaught
IndexError instead of omitting anything. -/
theorem formatter_failure_counterexample :
    format_open_meteo_result oneDayForecast "London" "t" "2026-10-14" = .ok none ∧
    (jget (jget oneDayForecast "daily") "time").isArr = true ∧
    pyTruthy (jget (jget oneDayForecast "daily") "time") = true ∧
    format_open_meteo_result raggedForecast "London" "t" "d2" = .error () :=
  ⟨rfl, rfl, rfl, rfl⟩

/-- C8, amended.  Missing optional fields never fail a formatter: the
primary formatter succeeds on any nonempty weather list whose selected entry
is a dict (whatever fields it carries), and the secondary formatter renders
on any daily block whose four required series are lists of length at least
two with the tomorrow index inside the max, min and code series (with or
without the precipitation series); but the secondary formatter rejects a
payload with fewer than two daily entries even when those entries are
complete, and raises an uncaught IndexError when the tomorrow index falls
beyond one of the max, min or code series. -/
theorem formatter_omission_amended :
    (∀ (data : JVal) (city ut : String) (items : List JVal),
      jget data "weather" = .arr items → items.isEmpty = false →
      (if 1 < items.length then items.getD 1 .null else items.getD 0 .null).isObj = true →
      (format_weather_result data city ut).isSome = true) ∧
    (∀ (forecast : JVal) (city ut tm : String) (dailyKvs : List (String × JVal))
       (ts mx mn cd : List JVal),
      jget forecast "daily" = .obj dailyKvs →
      jget (.obj dailyKvs) "time" = .arr ts →
      jget (.obj dailyKvs) "temperature_2m_max" = .arr mx →
      jget (.obj dailyKvs) "temperature_2m_min" = .arr mn →
      jget (.obj dailyKvs) "weather_code" = .arr cd →
      ((2 ≤ ts.length ∧ 2 ≤ mx.length ∧ 2 ≤ mn.length ∧ 2 ≤ cd.length ∧
        tomorrowIdx ts tm < mx.length ∧ tomorrowIdx ts tm < mn.length ∧
        tomorrowIdx ts tm < cd.length) →
        ∃ s, format_open_meteo_result forecast city ut tm = .ok (some s)) ∧
      (ts.length < 2 → format_open_meteo_result forecast city ut tm = .ok none) ∧
      ((2 ≤ ts.length ∧ 2 ≤ mx.length ∧ 2 ≤ mn.length ∧ 2 ≤ cd.length ∧
        (mx.length ≤ tomorrowIdx ts tm ∨ mn.length ≤ tomorrowIdx ts tm ∨
         cd.length ≤ tomorrowIdx ts tm)) →
        format_open_meteo_result forecast city ut tm = .error ())) := by
  constructor
  · intro data city ut items hw hne hday
    simp only [format_weather_result, hw, hne, Bool.false_eq_true, if_false, hday,
      Bool.not_true]
    split <;> simp
  · intro forecast city ut tm dailyKvs ts mx mn cd hd ht hmx hmn hcd
    refine ⟨?_, ?_, ?_⟩
    · intro ⟨h1, h2, h3, h4, h5, h6, h7⟩
      simp only [format_open_meteo_result, hd, ht, hmx, hmn, hcd]
      have hcond : (ts.length < 2 || mx.length < 2 || mn.length < 2 || cd.length < 2) = false := by
        simp
        omega
      have hidx : (mx.length ≤ tomorrowIdx ts tm || mn.length ≤ tomorrowIdx ts tm ||
          cd.length ≤ tomorrowIdx ts tm) = false := by
        simp
        omega
      simp only [hcond, Bool.false_eq_true, if_false, hidx]
      split <;> exact ⟨_, rfl⟩
    · intro h1
      simp only [format_open_meteo_result, hd, ht, hmx, hmn, hcd]
      have hcond : (ts.length < 2 || mx.length < 2 || mn.length < 2 || cd.length < 2) = true := by
        simp
        omega
      simp [hcond]
    · intro ⟨h1, h2, h3, h4, h5⟩
      simp only [format_open_meteo_result, hd, ht, hmx, hmn, hcd]
      have hcond : (ts.length < 2 || mx.length < 2 || mn.length < 2 || cd.length < 2) = false := by
        simp
        omega
      have hidx : (mx.length ≤ tomorrowIdx ts tm || mn.length ≤ tomorrowIdx ts tm ||
          cd.length ≤ tomorrowIdx ts tm) = true := by
        simp
        omega
      simp [hcond, hidx]

/-- Witness for C8 amended: a one-entry weather list whose only entry is an
empty dict still renders (with the fallback text); a two-day secondary
payload without the precipitation series renders; a one-day secondary
payload is rejected; and the ragged payload raises. -/
theorem formatter_omission_amended_witness :
    jget (.obj [("weather", JVal.arr [.obj []])]) "weather" = .arr [.obj []] ∧
    (format_weather_result (.obj [("weather", JVal.arr [.obj []])]) "L" "t").isSome = true ∧
    (∃ s, format_open_meteo_result twoDayForecast "L" "t" "d1" = .ok (some s)) ∧
    format_open_meteo_result oneDayForecast "L" "t" "d1" = .ok none ∧
    format_open_meteo_result raggedForecast "L" "t" "d2" = .error () := by
  refine ⟨rfl, ?_, ?_, ?_, ?_⟩
  · exact (formatter_omission_amended).1 (.obj [("weather", JVal.arr [.obj []])]) "L" "t"
      [.obj []] rfl rfl rfl
  · exact (((formatter_omission_amended).2 twoDayForecast "L" "t" "d1"
      [("time", .arr [.str "d0", .str "d1"]),
       ("temperature_2m_max", .arr [.num 10, .num 11]),
       ("temperature_2m_min", .arr [.num 2, .num 3]),
       ("weather_code", .arr [.num 3, .num 61])]
      [.str "d0", .str "d1"] [.num 10, .num 11] [.num 2, .num 3] [.num 3, .num 61]
      rfl rfl rfl rfl rfl).1 (by decide))
  · exact (((formatter_omission_amended).2 oneDayForecast "L" "t" "d1"
      [("time", .arr [.str "2026-10-13"]),
       ("temperature_2m_max", .arr [.num 10]),
       ("temperature_2m_min", .arr [.num 2]),
       ("weather_code", .arr [.num 3]),
       ("precipitation_probability_max", .arr [.num 40])]
      [.str "2026-10-13"] [.num 10] [.num 2] [.num 3]
      rfl rfl rfl rfl rfl).2.1 (by decide))
  · exact (((formatter_omission_amended).2 raggedForecast "L" "t" "d2"
      [("time", .arr [.str "d0", .str "d1", .str "d2"]),
       ("temperature_2m_max", .arr [.num 10, .num 11]),
       ("temperature_2m_min", .arr [.num 1, .num 2]),
       ("weather_code", .arr [.num 0, .num 0])]
      [.str "d0", .str "d1", .str "d2"] [.num 10, .num 11] [.num 1, .num 2]
      [.num 0, .num 0]
      rfl rfl rfl rfl rfl).2.2 (by decide))

/-- The concrete world of the C3 run: the inner loop yields one ErrorEvent;
every other collaborator is inert. -/
def c3World : World :=
  { http := fun _ _ => none
    tool := fun _ => .null
    toolNameOf := fun _ => "message"
    execute := fun _ => [.errorEv "x"]
    parseStep := fun _ => none
    promptFmt := fun _ _ _ _ => "prompt"
    tomorrow := "2026-10-14" }

/-- The C3 run: a weather-intent message with no extractable city, so the
rewrite path sets the restriction flag, entered with the flag false. -/
def c3Run : Run :=
  execStepRun c3World {} {description := "find the forecast"}
    {message := some "weather today"} false

/-- C3.  On the rewrite path the flag is set BEFORE the StepEvent(STARTED)
yield, and that yield lies OUTSIDE the try/finally block: a consumer that
consumes exactly one event and then closes the generator leaves the flag
true even though it was false at entry.  Abandonment inside the loop, and
full consumption, do restore it. -/
theorem restrict_flag_leak_on_early_abandon :
    flagAfterAbandon c3Run false 0 = false ∧
    flagAfterAbandon c3Run false 1 = true ∧
    flagAfterAbandon c3Run false 2 = false ∧
    c3Run.finalFlag = false ∧
    (c3Run.yields.head?.map (fun y => (y.ev, y.flagAt, y.inTry))) =
      some (.stepEv .started {description := "find the forecast", status := .running},
            true, false) := ⟨rfl, rfl, rfl, rfl, rfl⟩

/-- Counting lemma for the reinterpretation loop: when the inner sequence
holds no ask-user CALLED event and every MessageEvent body parses, the loop
ends normally, emits one terminal StepEvent per inner ErrorEvent or
MessageEvent (beyond any forwarded raw StepEvents), and forwards exactly the
raw WaitEvents. -/
theorem procInner_normal (w : World) (evs : List Event) (step : StepM)
    (hask : evs.countP isAskUserCalled = 0)
    (hparse : ∀ m, Event.messageEv m ∈ evs → (w.parseStep m).isSome = true) :
    (procInner w step evs).2.2 = .normal ∧
    (procInner w step evs).1.countP isTerminalStepEv =
      evs.countP isInnerErr + evs.countP isInnerMsg + evs.countP isTerminalStepEv ∧
    (procInner w step evs).1.countP isWaitEv = evs.countP isWaitEv ∧
    (procInner w step evs).1.countP isStepEv =
      evs.countP isInnerErr + evs.countP isInnerMsg + evs.countP isStepEv := by
  induction evs generalizing step with
  | nil => simp [procInner]
  | cons e rest ih =>
    rw [List.countP_cons] at hask
    have haske : isAskUserCalled e = false := by
      by_cases h : isAskUserCalled e = true
      · simp [h] at hask
      · simpa using h
    have hask' : rest.countP isAskUserCalled = 0 := by omega
    have hparse' : ∀ m, Event.messageEv m ∈ rest → (w.parseStep m).isSome = true :=
      fun m hm => hparse m (List.mem_cons_of_mem _ hm)
    match e with
    | .errorEv msg =>
      obtain ⟨ho, h1, h2, h3⟩ :=
        ih {step with status := .failed, error := some msg} hask' hparse'
      simp only [procInner, List.countP_cons, isInnerErr, isInnerMsg,
        isTerminalStepEv, isWaitEv, isStepEv, isErrorEv]
      refine ⟨ho, ?_, ?_, ?_⟩ <;>
        simp [List.countP_cons, isInnerErr, isInnerMsg, isTerminalStepEv, isWaitEv, isStepEv] <;>
        omega
    | .messageEv m =>
      have hm : (w.parseStep m).isSome = true := hparse m (by simp)
      obtain ⟨ns, hns⟩ := Option.isSome_iff_exists.mp hm
      obtain ⟨ho, h1, h2, h3⟩ :=
        ih { step with
             status := .completed, success := ns.success, result := ns.result,
             attachments := ns.attachments } hask' hparse'
      simp only [procInner, hns, List.countP_cons, List.countP_append,
        isInnerErr, isInnerMsg, isTerminalStepEv, isWaitEv, isStepEv]
      rcases hres : ns.result with _ | res
      · rw [hres] at ho h1 h2 h3
        refine ⟨ho, ?_, ?_, ?_⟩ <;>
          simp [List.countP_nil, List.countP_cons, isInnerErr, isInnerMsg, isTerminalStepEv, isWaitEv, isStepEv] <;>
          omega
      · rw [hres] at ho h1 h2 h3
        by_cases hre : res = ""
        · subst hre
          refine ⟨ho, ?_, ?_, ?_⟩ <;>
            simp [List.countP_cons, List.countP_nil, isTerminalStepEv, isWaitEv, isStepEv] <;>
            omega
        · refine ⟨ho, ?_, ?_, ?_⟩ <;>
            simp [hre, List.countP_cons, List.countP_nil, isTerminalStepEv, isWaitEv, isStepEv] <;>
            omega
    | .toolEv st tn fn args res =>
      by_cases hfn : fn = "message_ask_user"
      · match st with
        | .calling =>
          obtain ⟨ho, h1, h2, h3⟩ := ih step hask' hparse'
          simp only [procInner, hfn, if_pos, List.countP_cons,
            isInnerErr, isInnerMsg, isTerminalStepEv, isWaitEv, isStepEv]
          refine ⟨ho, ?_, ?_, ?_⟩ <;>
        simp [List.countP_cons, isInnerErr, isInnerMsg, isTerminalStepEv, isWaitEv, isStepEv] <;>
        omega
        | .called =>
          exfalso
          rw [isAskUserCalled] at haske
          simp [hfn] at haske
      · obtain ⟨ho, h1, h2, h3⟩ := ih step hask' hparse'
        simp only [procInner, hfn, if_neg hfn, List.countP_cons,
          isInnerErr, isInnerMsg, isTerminalStepEv, isWaitEv, isStepEv]
        refine ⟨ho, ?_, ?_, ?_⟩ <;>
        simp [List.countP_cons, isInnerErr, isInnerMsg, isTerminalStepEv, isWaitEv, isStepEv] <;>
        omega
    | .stepEv st s =>
      obtain ⟨ho, h1, h2, h3⟩ := ih step hask' hparse'
      simp only [procInner, List.countP_cons, isInnerErr, isInnerMsg,
        isTerminalStepEv, isWaitEv, isStepEv]
      rcases st with _ | _ | _ <;>
        (refine ⟨ho, ?_, ?_, ?_⟩ <;>
          simp [isTerminalStepEv, isStepEv, isWaitEv, isInnerErr, isInnerMsg] <;>
          omega)
    | .waitEv =>
      obtain ⟨ho, h1, h2, h3⟩ := ih step hask' hparse'
      simp only [procInner, List.countP_cons, isInnerErr, isInnerMsg,
        isTerminalStepEv, isWaitEv, isStepEv]
      refine ⟨ho, ?_, ?_, ?_⟩ <;>
        simp [List.countP_cons, isInnerErr, isInnerMsg, isTerminalStepEv, isWaitEv, isStepEv] <;>
        omega
    | .doneEv =>
      obtain ⟨ho, h1, h2, h3⟩ := ih step hask' hparse'
      simp only [procInner, List.countP_cons, isInnerErr, isInnerMsg,
        isTerminalStepEv, isWaitEv, isStepEv]
      refine ⟨ho, ?_, ?_, ?_⟩ <;>
        simp [List.countP_cons, isInnerErr, isInnerMsg, isTerminalStepEv, isWaitEv, isStepEv] <;>
        omega

/-- Wrapping the yielded events with flag metadata does not change event
counts. -/
theorem countP_yld_map (p : Event → Bool) (b c : Bool) (l : List Event) :
    (l.map (fun e => ({ev := e, flagAt := b, inTry := c} : Yld))).countP (fun y => p y.ev)
      = l.countP p := by
  induction l with
  | nil => rfl
  | cons e rest ih => simp [List.countP_cons, ih]

/-- C10.  On the generic path, when the inner sequence is exhausted without
an ask-user CALLED event (and every message body parses), `execute_step`
unconditionally forces the step status to COMPLETED after the loop — even
when an earlier ErrorEvent had set it FAILED — and this final write emits no
additional StepEvent: the StepEvents of the run are exactly the STARTED one
plus one per inner ErrorEvent or MessageEvent. -/
theorem post_loop_forced_completion (w : World) (plan : PlanM) (step0 : StepM)
    (msg : MessageM) (flag0 : Bool)
    (hgen : (if forceWeather (msg.message.getD "") step0.description
             then extract_weather_city (msg.message.getD "") else none) = none)
    (hask : (w.execute (genericPrompt w plan step0 msg)).countP isAskUserCalled = 0)
    (hparse : ∀ m, Event.messageEv m ∈ w.execute (genericPrompt w plan step0 msg) →
      (w.parseStep m).isSome = true)
    (hraw : (w.execute (genericPrompt w plan step0 msg)).countP isStepEv = 0) :
    (execStepRun w plan step0 msg flag0).outcome = .normal ∧
    (execStepRun w plan step0 msg flag0).finalStep.status = .completed ∧
    (execStepRun w plan step0 msg flag0).yields.countP (fun y => isStepEv y.ev) =
      1 + (w.execute (genericPrompt w plan step0 msg)).countP isInnerErr
        + (w.execute (genericPrompt w plan step0 msg)).countP isInnerMsg := by
  obtain ⟨ho, h1, h2, h3⟩ :=
    procInner_normal w (w.execute (genericPrompt w plan step0 msg))
      {step0 with status := .running} hask hparse
  simp only [execStepRun, hgen]
  refine ⟨ho, ?_, ?_⟩
  · rw [ho]
  · simp only [List.countP_cons, countP_yld_map]
    simp [isStepEv]
    omega

/-- The inert world of the C10 witness, whose tool loop yields exactly one
ErrorEvent. -/
def c10World : World :=
  { http := fun _ _ => none
    tool := fun _ => .null
    toolNameOf := fun _ => "t"
    execute := fun _ => [.errorEv "boom"]
    parseStep := fun _ => none
    promptFmt := fun _ _ _ _ => "p"
    tomorrow := "d" }

/-- Witness for C10: one inner ErrorEvent marks the step FAILED and emits a
terminal StepEvent(FAILED), yet after exhaustion the final status is
COMPLETED, with exactly two StepEvents in the whole run. -/
theorem post_loop_forced_completion_witness :
    (c10World.execute (genericPrompt c10World {} {description := "analyze"}
      {message := some "hi"})).countP isInnerErr = 1 ∧
    (execStepRun c10World {} {description := "analyze"} {message := some "hi"} false).yields.countP
      (fun y => isTerminalStepEv y.ev) = 1 ∧
    (execStepRun c10World {} {description := "analyze"} {message := some "hi"} false).finalStep.status
      = .completed ∧
    (execStepRun c10World {} {description := "analyze"} {message := some "hi"} false).yields.countP
      (fun y => isStepEv y.ev) = 2 := by
  have h := post_loop_forced_completion c10World {} {description := "analyze"}
    {message := some "hi"} false rfl rfl (by intro m hm; simp [c10World] at hm) rfl
  exact ⟨rfl, rfl, h.2.1, h.2.2.trans (by rfl)⟩

/-- Suspension lemma for the reinterpretation loop: when the prefix before
the first ask-user CALLED event holds no ErrorEvent, MessageEvent, or other
ask-user CALLED event, the loop yields its reinterpreted prefix followed by
a final WaitEvent, stops there, and leaves the step state untouched. -/
theorem procInner_wait (w : World) (pre : List Event) (step : StepM)
    (tn : String) (args : List (String × String)) (res : Option JVal) (rest : List Event)
    (h1 : pre.countP isInnerErr = 0) (h2 : pre.countP isInnerMsg = 0)
    (h3 : pre.countP isAskUserCalled = 0) :
    (procInner w step (pre ++ Event.toolEv .called tn "message_ask_user" args res :: rest)).2.2
      = .waited ∧
    (procInner w step (pre ++ Event.toolEv .called tn "message_ask_user" args res :: rest)).2.1
      = step ∧
    (procInner w step (pre ++ Event.toolEv .called tn "message_ask_user" args res :: rest)).1.getLast?
      = some Event.waitEv ∧
    (procInner w step (pre ++ Event.toolEv .called tn "message_ask_user" args res :: rest)).1.countP
        isTerminalStepEv
      = pre.countP isTerminalStepEv := by
  induction pre generalizing step with
  | nil => simp [procInner, isTerminalStepEv]
  | cons e p ih =>
    rw [List.countP_cons] at h1 h2 h3
    have h1' : p.countP isInnerErr = 0 := by omega
    have h2' : p.countP isInnerMsg = 0 := by omega
    have h3' : p.countP isAskUserCalled = 0 := by omega
    have he1 : isInnerErr e = false := by
      by_cases h : isInnerErr e = true
      · simp [h] at h1
      · simpa using h
    have he2 : isInnerMsg e = false := by
      by_cases h : isInnerMsg e = true
      · simp [h] at h2
      · simpa using h
    have he3 : isAskUserCalled e = false := by
      by_cases h : isAskUserCalled e = true
      · simp [h] at h3
      · simpa using h
    obtain ⟨io, is, il, ic⟩ := ih step h1' h2' h3'
    have hne : (procInner w step (p ++ Event.toolEv .called tn "message_ask_user" args res :: rest)).1 ≠ [] := by
      intro hnil
      rw [hnil] at il
      simp at il
    match e with
    | .errorEv msg => simp [isInnerErr] at he1
    | .messageEv m => simp [isInnerMsg] at he2
    | .toolEv st tn' fn' args' res' =>
      by_cases hfn : fn' = "message_ask_user"
      · match st with
        | .calling =>
          subst hfn
          have hstep : procInner w step
              ((Event.toolEv .calling tn' "message_ask_user" args' res' :: p) ++
                Event.toolEv .called tn "message_ask_user" args res :: rest) =
              (Event.messageEv (argGet args' "text") ::
                (procInner w step (p ++ Event.toolEv .called tn "message_ask_user" args res :: rest)).1,
               (procInner w step (p ++ Event.toolEv .called tn "message_ask_user" args res :: rest)).2) := by
            simp [List.cons_append, procInner]
          rw [hstep]
          refine ⟨io, is, ?_, ?_⟩
          · rcases hq : (procInner w step (p ++ Event.toolEv .called tn "message_ask_user" args res :: rest)).1 with _ | ⟨o, os⟩
            · exact absurd hq hne
            · rw [hq] at il
              simpa [List.getLast?_cons_cons] using il
          · rw [List.countP_cons, List.countP_cons, ic]
            simp [isTerminalStepEv]
        | .called =>
          rw [isAskUserCalled] at he3
          simp [hfn] at he3
      · have hstep : procInner w step
            ((Event.toolEv st tn' fn' args' res' :: p) ++
              Event.toolEv .called tn "message_ask_user" args res :: rest) =
            (Event.toolEv st tn' fn' args' res' ::
              (procInner w step (p ++ Event.toolEv .called tn "message_ask_user" args res :: rest)).1,
             (procInner w step (p ++ Event.toolEv .called tn "message_ask_user" args res :: rest)).2) := by
          simp [List.cons_append, procInner, hfn]
        rw [hstep]
        refine ⟨io, is, ?_, ?_⟩
        · rcases hq : (procInner w step (p ++ Event.toolEv .called tn "message_ask_user" args res :: rest)).1 with _ | ⟨o, os⟩
          · exact absurd hq hne
          · rw [hq] at il
            simpa [List.getLast?_cons_cons] using il
        · rw [List.countP_cons, List.countP_cons, ic]
    | .stepEv st s =>
      have hstep : procInner w step
          ((Event.stepEv st s :: p) ++ Event.toolEv .called tn "message_ask_user" args res :: rest) =
          (Event.stepEv st s ::
            (procInner w step (p ++ Event.toolEv .called tn "message_ask_user" args res :: rest)).1,
           (procInner w step (p ++ Event.toolEv .called tn "message_ask_user" args res :: rest)).2) := rfl
      rw [hstep]
      refine ⟨io, is, ?_, ?_⟩
      · rcases hq : (procInner w step (p ++ Event.toolEv .called tn "message_ask_user" args res :: rest)).1 with _ | ⟨o, os⟩
        · exact absurd hq hne
        · rw [hq] at il
          simpa [List.getLast?_cons_cons] using il
      · rw [List.countP_cons, List.countP_cons, ic]
    | .waitEv =>
      have hstep : procInner w step
          ((Event.waitEv :: p) ++ Event.toolEv .called tn "message_ask_user" args res :: rest) =
          (Event.waitEv ::
            (procInner w step (p ++ Event.toolEv .called tn "message_ask_user" args res :: rest)).1,
           (procInner w step (p ++ Event.toolEv .called tn "message_ask_user" args res :: rest)).2) := rfl
      rw [hstep]
      refine ⟨io, is, ?_, ?_⟩
      · rcases hq : (procInner w step (p ++ Event.toolEv .called tn "message_ask_user" args res :: rest)).1 with _ | ⟨o, os⟩
        · exact absurd hq hne
        · rw [hq] at il
          simpa [List.getLast?_cons_cons] using il
      · rw [List.countP_cons, List.countP_cons, ic]
    | .doneEv =>
      have hstep : procInner w step
          ((Event.doneEv :: p) ++ Event.toolEv .called tn "message_ask_user" args res :: rest) =
          (Event.doneEv ::
            (procInner w step (p ++ Event.toolEv .called tn "message_ask_user" args res :: rest)).1,
           (procInner w step (p ++ Event.toolEv .called tn "message_ask_user" args res :: rest)).2) := rfl
      rw [hstep]
      refine ⟨io, is, ?_, ?_⟩
      · rcases hq : (procInner w step (p ++ Event.toolEv .called tn "message_ask_user" args res :: rest)).1 with _ | ⟨o, os⟩
        · exact absurd hq hne
        · rw [hq] at il
          simpa [List.getLast?_cons_cons] using il
      · rw [List.countP_cons, List.countP_cons, ic]

/-- countP distributes over a conditional list. -/
theorem countP_ite {α : Type} (p : α → Bool) (c : Prop) [Decidable c] (a b : List α) :
    (if c then a else b).countP p = if c then a.countP p else b.countP p := by
  split <;> rfl

/-- The failure tail appends exactly one terminal StepEvent to the events
accumulated so far, unless the formatter retry raises (then it appends
nothing); it never appends a WaitEvent. -/
theorem weatherFailurePhase_counts (w : World) (step1 : StepM) (ut city : String)
    (k : Nat) (evs : List Event) (log : List String) :
    ((weatherFailurePhase w step1 ut city k evs log).yields.countP isTerminalStepEv
      = evs.countP isTerminalStepEv +
        (if (weatherFailurePhase w step1 ut city k evs log).raised then 0 else 1)) ∧
    ((weatherFailurePhase w step1 ut city k evs log).yields.countP isWaitEv
      = evs.countP isWaitEv) := by
  simp only [weatherFailurePhase]
  split
  · simp [List.countP_append, List.countP_cons, isTerminalStepEv, isWaitEv]
  · split <;>
      simp [List.countP_append, List.countP_cons, isTerminalStepEv, isWaitEv]
  · simp [List.countP_append, List.countP_cons, isTerminalStepEv, isWaitEv]

/-- The browser phase appends exactly one terminal StepEvent to the events
accumulated so far unless its failure tail raises (then it appends none),
and never a WaitEvent. -/
theorem weatherBrowserPhase_counts (w : World) (step1 : StepM) (ut city : String)
    (k t : Nat) (pre : List Event) (preLog : List String) :
    ((weatherBrowserPhase w step1 ut city k t pre preLog).yields.countP isTerminalStepEv
      = pre.countP isTerminalStepEv +
        (if (weatherBrowserPhase w step1 ut city k t pre preLog).raised then 0 else 1)) ∧
    ((weatherBrowserPhase w step1 ut city k t pre preLog).yields.countP isWaitEv
      = pre.countP isWaitEv) := by
  simp only [weatherBrowserPhase]
  split
  · split
    · simp [call_tool, countP_ite, List.countP_append, List.countP_cons,
        isTerminalStepEv, isWaitEv]
    · refine ⟨?_, ?_⟩
      · rw [(weatherFailurePhase_counts w step1 ut city _ _ _).1]
        simp [call_tool, countP_ite, List.countP_append, List.countP_cons,
          isTerminalStepEv, isWaitEv]
      · rw [(weatherFailurePhase_counts w step1 ut city _ _ _).2]
        simp [call_tool, countP_ite, List.countP_append, List.countP_cons,
          isTerminalStepEv, isWaitEv]
  · refine ⟨?_, ?_⟩
    · rw [(weatherFailurePhase_counts w step1 ut city _ _ _).1]
      simp [call_tool, countP_ite, List.countP_append, List.countP_cons,
        isTerminalStepEv, isWaitEv]
    · rw [(weatherFailurePhase_counts w step1 ut city _ _ _).2]
      simp [call_tool, countP_ite, List.countP_append, List.countP_cons,
        isTerminalStepEv, isWaitEv]

/-- The weather pipeline emits exactly one terminal StepEvent unless it
aborts on a formatter raise (then it emits none), and never a WaitEvent. -/
theorem weatherRun_counts (w : World) (step0 : StepM) (ut city : String) :
    ((weatherRun w step0 ut city).yields.countP isTerminalStepEv
      = (if (weatherRun w step0 ut city).raised then 0 else 1)) ∧
    ((weatherRun w step0 ut city).yields.countP isWaitEv = 0) := by
  simp only [weatherRun]
  split
  · split
    · simp [call_tool, List.countP_cons, isTerminalStepEv, isWaitEv]
    · split
      · simp [call_tool, List.countP_append, List.countP_cons, isTerminalStepEv, isWaitEv]
      · refine ⟨?_, ?_⟩
        · rw [(weatherBrowserPhase_counts w _ ut city _ _ _ _).1]
          simp [call_tool, List.countP_cons, isTerminalStepEv, isWaitEv]
        · rw [(weatherBrowserPhase_counts w _ ut city _ _ _ _).2]
          simp [call_tool, List.countP_cons, isTerminalStepEv, isWaitEv]
    · refine ⟨?_, ?_⟩
      · rw [(weatherBrowserPhase_counts w _ ut city _ _ _ _).1]
        simp [call_tool, List.countP_cons, isTerminalStepEv, isWaitEv]
      · rw [(weatherBrowserPhase_counts w _ ut city _ _ _ _).2]
        simp [call_tool, List.countP_cons, isTerminalStepEv, isWaitEv]
  · refine ⟨?_, ?_⟩
    · rw [(weatherBrowserPhase_counts w _ ut city _ _ _ _).1]
      simp [call_tool, List.countP_cons, isTerminalStepEv, isWaitEv]
    · rw [(weatherBrowserPhase_counts w _ ut city _ _ _ _).2]
      simp [call_tool, List.countP_cons, isTerminalStepEv, isWaitEv]

/-- The failure tail preserves the accumulated event prefix. -/
theorem weatherFailurePhase_shape (w : World) (step1 : StepM) (ut city : String)
    (k : Nat) (evs : List Event) (log : List String) :
    ∃ tail, (weatherFailurePhase w step1 ut city k evs log).yields = evs ++ tail := by
  simp only [weatherFailurePhase]
  split
  · exact ⟨[], (List.append_nil _).symm⟩
  · split
    · exact ⟨_, rfl⟩
    · exact ⟨_, rfl⟩
  · exact ⟨_, rfl⟩

/-- The browser phase preserves the accumulated event prefix. -/
theorem weatherBrowserPhase_shape (w : World) (step1 : StepM) (ut city : String)
    (k t : Nat) (pre : List Event) (preLog : List String) :
    ∃ tail, (weatherBrowserPhase w step1 ut city k t pre preLog).yields = pre ++ tail := by
  simp only [weatherBrowserPhase]
  split
  · split
    · exact ⟨_, by rw [List.append_assoc, List.append_assoc, List.append_assoc]⟩
    · obtain ⟨tl, htl⟩ := weatherFailurePhase_shape w step1 ut city _ _ _
      exact ⟨_, by rw [htl, List.append_assoc, List.append_assoc, List.append_assoc]⟩
  · obtain ⟨tl, htl⟩ := weatherFailurePhase_shape w step1 ut city _ _ _
    exact ⟨_, by rw [htl, List.append_assoc, List.append_assoc, List.append_assoc]⟩

/-- Every weather-pipeline run opens with StepEvent(STARTED) on the RUNNING
step. -/
theorem weatherRun_shape (w : World) (step0 : StepM) (ut city : String) :
    ∃ tail, (weatherRun w step0 ut city).yields =
      Event.stepEv .started {step0 with status := .running} :: tail := by
  simp only [weatherRun]
  split
  · split
    · exact ⟨_, rfl⟩
    · split
      · exact ⟨_, rfl⟩
      · obtain ⟨tl, htl⟩ := weatherBrowserPhase_shape w _ ut city _ _ _ _
        exact ⟨_, by rw [htl]; rfl⟩
    · obtain ⟨tl, htl⟩ := weatherBrowserPhase_shape w _ ut city _ _ _ _
      exact ⟨_, by rw [htl]; rfl⟩
  · obtain ⟨tl, htl⟩ := weatherBrowserPhase_shape w _ ut city _ _ _ _
    exact ⟨_, by rw [htl]; rfl⟩

/-- Wrapping the yields with flag metadata commutes with taking the last
event. -/
theorem getLast_yld_map (b c : Bool) (l : List Event) :
    ((l.map (fun e => ({ev := e, flagAt := b, inTry := c} : Yld))).getLast?).map Yld.ev
      = l.getLast? := by
  induction l with
  | nil => rfl
  | cons e rest ih =>
    cases rest with
    | nil => rfl
    | cons f fs =>
      simpa [List.map_cons, List.getLast?_cons_cons] using ih

/-- Cons form of `getLast_yld_map`, matching the beta-reduced goal shape. -/
theorem getLast_yld_map_cons (b c : Bool) (o : Event) (os : List Event) (z : Event)
    (h : (o :: os).getLast? = some z) :
    ((({ev := o, flagAt := b, inTry := c} : Yld) ::
        os.map (fun e => ({ev := e, flagAt := b, inTry := c} : Yld))).getLast?).map Yld.ev
      = some z := by
  have hm := getLast_yld_map b c (o :: os)
  rw [List.map_cons] at hm
  rw [hm]
  exact h

/-- C1 (amended).  Every run opens with StepEvent(STARTED).  On the generic
path the executor emits one terminal StepEvent per consumed inner ErrorEvent
or MessageEvent, so with exactly one such inner event (no ask-user CALLED
event, parsable bodies, no forwarded raw StepEvents or WaitEvents) the run
carries exactly one terminal StepEvent and no WaitEvent; when an ask-user
CALLED event arrives before any ErrorEvent or MessageEvent, the run ends in
a WaitEvent, emits no terminal StepEvent and leaves the step RUNNING; and on
the retrieval path there is exactly one terminal StepEvent unless the run
aborts on the secondary formatter's uncaught IndexError (then there is
none), and never a WaitEvent. -/
theorem execute_step_event_protocol (w : World) (plan : PlanM) (step0 : StepM)
    (msg : MessageM) (flag0 : Bool) :
    (∃ y tail s, (execStepRun w plan step0 msg flag0).yields = y :: tail ∧
      y.ev = Event.stepEv .started s) ∧
    ((if forceWeather (msg.message.getD "") step0.description
        then extract_weather_city (msg.message.getD "") else none) = none →
      (w.execute (genericPrompt w plan step0 msg)).countP isAskUserCalled = 0 →
      (∀ m, Event.messageEv m ∈ w.execute (genericPrompt w plan step0 msg) →
        (w.parseStep m).isSome = true) →
      (w.execute (genericPrompt w plan step0 msg)).countP isInnerErr +
        (w.execute (genericPrompt w plan step0 msg)).countP isInnerMsg = 1 →
      (w.execute (genericPrompt w plan step0 msg)).countP isTerminalStepEv = 0 →
      (w.execute (genericPrompt w plan step0 msg)).countP isWaitEv = 0 →
      (execStepRun w plan step0 msg flag0).yields.countP (fun y => isTerminalStepEv y.ev) = 1 ∧
      (execStepRun w plan step0 msg flag0).yields.countP (fun y => isWaitEv y.ev) = 0) ∧
    (∀ pre tn args res rest,
      (if forceWeather (msg.message.getD "") step0.description
        then extract_weather_city (msg.message.getD "") else none) = none →
      w.execute (genericPrompt w plan step0 msg) =
        pre ++ Event.toolEv .called tn "message_ask_user" args res :: rest →
      pre.countP isInnerErr = 0 → pre.countP isInnerMsg = 0 →
      pre.countP isAskUserCalled = 0 → pre.countP isTerminalStepEv = 0 →
      (execStepRun w plan step0 msg flag0).outcome = .waited ∧
      (execStepRun w plan step0 msg flag0).finalStep.status = .running ∧
      ((execStepRun w plan step0 msg flag0).yields.getLast?).map Yld.ev = some Event.waitEv ∧
      (execStepRun w plan step0 msg flag0).yields.countP (fun y => isTerminalStepEv y.ev) = 0) ∧
    (∀ city,
      (if forceWeather (msg.message.getD "") step0.description
        then extract_weather_city (msg.message.getD "") else none) = some city →
      (execStepRun w plan step0 msg flag0).yields.countP (fun y => isTerminalStepEv y.ev)
        = (if (execStepRun w plan step0 msg flag0).outcome = .raised then 0 else 1) ∧
      (execStepRun w plan step0 msg flag0).yields.countP (fun y => isWaitEv y.ev) = 0) := by
  refine ⟨?_, ?_, ?_, ?_⟩
  · rcases h : (if forceWeather (msg.message.getD "") step0.description
        then extract_weather_city (msg.message.getD "") else none) with _ | city
    · simp only [execStepRun, h]
      exact ⟨_, _, _, rfl, rfl⟩
    · simp only [execStepRun, h]
      obtain ⟨tl, htl⟩ := weatherRun_shape w step0 (msg.message.getD "") city
      rw [htl]
      exact ⟨_, _, _, rfl, rfl⟩
  · intro hgen hask hparse hone hterm hwait
    obtain ⟨ho, h1, h2, h3⟩ :=
      procInner_normal w (w.execute (genericPrompt w plan step0 msg))
        {step0 with status := .running} hask hparse
    simp only [execStepRun, hgen]
    constructor
    · simp only [List.countP_cons, countP_yld_map, h1]
      have hst : isTerminalStepEv (Event.stepEv .started {step0 with status := .running}) = false := rfl
      rw [hst]
      simp only [Bool.false_eq_true, if_false]
      omega
    · simp only [List.countP_cons, countP_yld_map, h2]
      have hst : isWaitEv (Event.stepEv .started {step0 with status := .running}) = false := rfl
      rw [hst]
      simp only [Bool.false_eq_true, if_false]
      omega
  · intro pre tn args res rest hgen hL hp1 hp2 hp3 hp4
    obtain ⟨io, is, il, ic⟩ :=
      procInner_wait w pre {step0 with status := .running} tn args res rest hp1 hp2 hp3
    rw [← hL] at io is il ic
    simp only [execStepRun, hgen]
    refine ⟨io, ?_, ?_, ?_⟩
    · rw [io, is]
    · have hne : (procInner w {step0 with status := .running}
          (w.execute (genericPrompt w plan step0 msg))).1 ≠ [] := by
        intro hnil
        rw [hnil] at il
        simp at il
      rcases hq : (procInner w {step0 with status := .running}
          (w.execute (genericPrompt w plan step0 msg))).1 with _ | ⟨o, os⟩
      · exact absurd hq hne
      · rw [hq] at il
        rw [List.map_cons, List.getLast?_cons_cons]
        exact getLast_yld_map_cons _ _ o os _ il
    · simp only [List.countP_cons, countP_yld_map, ic, hp4]
      have hst : isTerminalStepEv (Event.stepEv .started {step0 with status := .running}) = false := rfl
      rw [hst]
      simp
  · intro city h
    simp only [execStepRun, h]
    constructor
    · simp only [countP_yld_map]
      have hcount := (weatherRun_counts w step0 (msg.message.getD "") city).1
      cases hr : (weatherRun w step0 (msg.message.getD "") city).raised with
      | false =>
        rw [hr] at hcount
        simpa [hr] using hcount
      | true =>
        rw [hr] at hcount
        simpa [hr] using hcount
    · simp only [countP_yld_map]
      exact (weatherRun_counts w step0 (msg.message.getD "") city).2

/-- The world of the C1 counterexample: the tool loop yields two
ErrorEvents; everything else is inert. -/
def c1World : World :=
  { http := fun _ _ => none
    tool := fun _ => .null
    toolNameOf := fun _ => "t"
    execute := fun _ => [.errorEv "e1", .errorEv "e2"]
    parseStep := fun _ => none
    promptFmt := fun _ _ _ _ => "p"
    tomorrow := "d" }

/-- C1, counterexample.  A run whose inner loop yields two ErrorEvents emits
TWO terminal StepEvents (and no WaitEvent) and still completes normally —
against the claimed exactly-one-terminal-or-wait protocol. -/
theorem execute_step_two_terminal_counterexample :
    (execStepRun c1World {} {description := "do the thing"} {message := some "hello"} false).yields.countP
      (fun y => isTerminalStepEv y.ev) = 2 ∧
    (execStepRun c1World {} {description := "do the thing"} {message := some "hello"} false).yields.countP
      (fun y => isWaitEv y.ev) = 0 ∧
    (execStepRun c1World {} {description := "do the thing"} {message := some "hello"} false).outcome
      = .normal := ⟨rfl, rfl, rfl⟩

/-- Witness world A: one inner ErrorEvent on the generic path. -/
def c1WitWorldA : World :=
  { http := fun _ _ => none
    tool := fun _ => .null
    toolNameOf := fun _ => "t"
    execute := fun _ => [.errorEv "only"]
    parseStep := fun _ => none
    promptFmt := fun _ _ _ _ => "p"
    tomorrow := "d" }

/-- Witness world B: an immediate ask-user CALLED tool event. -/
def c1WitWorldB : World :=
  { http := fun _ _ => none
    tool := fun _ => .null
    toolNameOf := fun _ => "t"
    execute := fun _ => [.toolEv .called "msg" "message_ask_user" [] none]
    parseStep := fun _ => none
    promptFmt := fun _ _ _ _ => "p"
    tomorrow := "d" }

/-- Witness world C: the retrieval path with every collaborator failing. -/
def c1WitWorldC : World :=
  { http := fun _ _ => none
    tool := fun _ => .null
    toolNameOf := fun _ => "t"
    execute := fun _ => []
    parseStep := fun _ => none
    promptFmt := fun _ _ _ _ => "p"
    tomorrow := "d" }

/-- Witness world D: the retrieval path where the primary fetch fails, the
secondary provider geocodes and returns a forecast whose time series is
longer than its temperature and code series and holds tomorrow at a late
index, so the secondary formatter raises. -/
def c1WitWorldD : World :=
  { http := fun _ url =>
      if url = geoUrl "Paris" then
        some "\x7b\"results\":[\x7b\"latitude\":1,\"longitude\":2\x7d]\x7d"
      else if url = forecastUrl (.num 1) (.num 2) then
        some ("\x7b\"daily\":\x7b\"time\":[\"d0\",\"d1\",\"d2\"],\"weather_code\":[0,0]," ++
          "\"temperature_2m_max\":[10,11],\"temperature_2m_min\":[1,2]\x7d\x7d")
      else none
    tool := fun _ => .null
    toolNameOf := fun _ => "t"
    execute := fun _ => []
    parseStep := fun _ => none
    promptFmt := fun _ _ _ _ => "p"
    tomorrow := "d2" }

set_option maxRecDepth 8000 in
/-- Witness for C1 amended: one inner error gives exactly one terminal
StepEvent; an immediate ask-user CALLED gives a final WaitEvent with the
step left RUNNING; the retrieval path with all collaborators failing gives
exactly one terminal StepEvent and no WaitEvent; and the retrieval path
whose secondary formatter raises aborts with zero terminal StepEvents. -/
theorem execute_step_event_protocol_witness :
    ((execStepRun c1WitWorldA {} {description := "do"} {message := some "hello"} false).yields.countP
        (fun y => isTerminalStepEv y.ev) = 1 ∧
     (execStepRun c1WitWorldA {} {description := "do"} {message := some "hello"} false).yields.countP
        (fun y => isWaitEv y.ev) = 0) ∧
    ((execStepRun c1WitWorldB {} {description := "do"} {message := some "hello"} false).outcome = .waited ∧
     (execStepRun c1WitWorldB {} {description := "do"} {message := some "hello"} false).finalStep.status = .running ∧
     ((execStepRun c1WitWorldB {} {description := "do"} {message := some "hello"} false).yields.getLast?).map Yld.ev
        = some Event.waitEv ∧
     (execStepRun c1WitWorldB {} {description := "do"} {message := some "hello"} false).yields.countP
        (fun y => isTerminalStepEv y.ev) = 0) ∧
    ((execStepRun c1WitWorldC {} {description := "fetch"}
        {message := some "weather\\sin\\sLondon"} false).yields.countP
        (fun y => isTerminalStepEv y.ev) = 1 ∧
     (execStepRun c1WitWorldC {} {description := "fetch"}
        {message := some "weather\\sin\\sLondon"} false).yields.countP
        (fun y => isWaitEv y.ev) = 0) ∧
    ((execStepRun c1WitWorldD {} {description := "fetch"}
        {message := some "weather\\sin\\sParis"} false).outcome = .raised ∧
     (execStepRun c1WitWorldD {} {description := "fetch"}
        {message := some "weather\\sin\\sParis"} false).yields.countP
        (fun y => isTerminalStepEv y.ev) = 0 ∧
     (execStepRun c1WitWorldD {} {description := "fetch"}
        {message := some "weather\\sin\\sParis"} false).yields.countP
        (fun y => isWaitEv y.ev) = 0) := by
  refine ⟨?_, ?_, ?_, ?_⟩
  · exact (execute_step_event_protocol c1WitWorldA {} {description := "do"}
      {message := some "hello"} false).2.1
      rfl rfl (by intro m hm; simp [c1WitWorldA] at hm) rfl rfl rfl
  · exact (execute_step_event_protocol c1WitWorldB {} {description := "do"}
      {message := some "hello"} false).2.2.1
      [] "msg" [] none [] rfl rfl rfl rfl rfl rfl
  · have h := (execute_step_event_protocol c1WitWorldC {} {description := "fetch"}
      {message := some "weather\\sin\\sLondon"} false).2.2.2 "London" rfl
    exact ⟨h.1.trans rfl, h.2⟩
  · have h := (execute_step_event_protocol c1WitWorldD {} {description := "fetch"}
      {message := some "weather\\sin\\sParis"} false).2.2.2 "Paris" rfl
    exact ⟨rfl, h.1.trans rfl, h.2⟩

/-- The inert world of the C4 counterexample. -/
def c4World : World :=
  { http := fun _ _ => none
    tool := fun _ => .null
    toolNameOf := fun _ => "browser"
    execute := fun _ => []
    parseStep := fun _ => none
    promptFmt := fun _ _ _ _ => "p"
    tomorrow := "d" }

/-- C4, counterexample.  On an all-fail run driven by an English inbound
text, the single aggregate ErrorEvent carries the fixed Chinese message —
not a message in the caller's working language family. -/
theorem aggregate_failure_locale_counterexample :
    ((weatherRun c4World {} "weather\\sin\\sLondon" "London").yields.getLast?)
      = some (.errorEv weatherFailText) ∧
    containsSub "weather\\sin\\sLondon" "天气" = false ∧
    inWorkingLanguageFamily "weather\\sin\\sLondon" weatherFailText = false :=
  ⟨rfl, rfl, rfl⟩

/-- Auxiliary: with an all-failing network, geocoding resolves nothing. -/
theorem geoLoop_allfail (w : World) (hhttp : ∀ k u, w.http k u = none) :
    ∀ (names : List String) (k : Nat), (geoLoop w k names).1 = none := by
  intro names
  induction names with
  | nil => intro k; rfl
  | cons n rest ih =>
    intro k
    simp [geoLoop, hhttp, ih]

/-- Auxiliary: with an all-failing network, the secondary provider fails. -/
theorem fetch_open_meteo_allfail (w : World) (city : String)
    (hhttp : ∀ k u, w.http k u = none) (k : Nat) :
    (fetch_open_meteo w k city).1 = none := by
  rcases hg : geoLoop w k (city :: (if city = "北京" then ["Beijing"] else []))
    with ⟨gv, gk, glog⟩
  have hgv : gv = none := by
    have h := geoLoop_allfail w hhttp (city :: (if city = "北京" then ["Beijing"] else [])) k
    rw [hg] at h
    exact h
  subst hgv
  simp [fetch_open_meteo, hg]

/-- C4, amended.  Whenever every collaborator fails (all network requests
raise and all tool results carry no data), the pipeline surfaces exactly one
aggregate failure: the event sequence ends with StepEvent(FAILED) followed
by a single ErrorEvent carrying the fixed, non-empty message 无法获取天气数据
irrespective of the caller's locale, no per-strategy error is surfaced, and
the step ends FAILED with that error recorded. -/
theorem aggregate_failure_amended (w : World) (step0 : StepM) (ut city : String)
    (hhttp : ∀ k u, w.http k u = none) (htool : ∀ t, w.tool t = .null) :
    (∃ s pre, (weatherRun w step0 ut city).yields =
        pre ++ [.stepEv .failed s, .errorEv weatherFailText] ∧
      pre.countP isErrorEv = 0 ∧ pre.countP isTerminalStepEv = 0) ∧
    (weatherRun w step0 ut city).yields.countP isErrorEv = 1 ∧
    (weatherRun w step0 ut city).yields.countP isTerminalStepEv = 1 ∧
    weatherFailText ≠ "" ∧
    (weatherRun w step0 ut city).finalStep.status = .failed ∧
    (weatherRun w step0 ut city).finalStep.error = some weatherFailText := by
  have hfw : ∀ k, fetch_weather_json w k city = (none, k + 1, [wttrUrl city]) := by
    intro k
    simp [fetch_weather_json, hhttp]
  have hom : ∀ k, (fetch_open_meteo w k city).1 = none :=
    fetch_open_meteo_allfail w city hhttp
  have hpn : parse_weather_json JVal.null = none := rfl
  simp only [weatherRun, weatherBrowserPhase, weatherFailurePhase, call_tool,
    hfw, hom, htool, hpn, omResultText, dataResultText, pyTruthyO, JVal.isObj,
    Bool.false_eq_true, Bool.not_false, if_false, if_true]
  refine ⟨⟨_, _, rfl, ?_, ?_⟩, ?_, ?_, by decide, trivial, trivial⟩ <;>
    simp [List.countP_append, List.countP_cons, isErrorEv, isTerminalStepEv]

/-- Witness for C4 amended: on the inert world the run ends FAILED with a
single ErrorEvent carrying the fixed message. -/
theorem aggregate_failure_amended_witness :
    (weatherRun c4World {} "weather\\sin\\sLondon" "London").yields.countP isErrorEv = 1 ∧
    (weatherRun c4World {} "weather\\sin\\sLondon" "London").yields.countP isTerminalStepEv = 1 ∧
    (weatherRun c4World {} "weather\\sin\\sLondon" "London").finalStep.status = .failed ∧
    (weatherRun c4World {} "weather\\sin\\sLondon" "London").finalStep.error
      = some weatherFailText := by
  have h := aggregate_failure_amended c4World {} "weather\\sin\\sLondon" "London"
    (fun _ _ => rfl) (fun _ => rfl)
  exact ⟨h.2.1, h.2.2.1, h.2.2.2.2.1, h.2.2.2.2.2⟩

/-- The parse of the in-page script result, at the tool index the pipeline
uses for it. -/
def consoleParse (w : World) : Option JVal :=
  parse_weather_json (if (w.tool 2).isObj then jget (w.tool 2) "result" else .null)

/-- The URL log of one direct wttr.in fetch, whether or not it succeeds. -/
theorem fetch_weather_json_log (w : World) (k : Nat) (city : String) :
    (fetch_weather_json w k city).2.2 = [wttrUrl city] := by
  simp only [fetch_weather_json]
  split <;> rfl

/-- A direct wttr.in fetch advances the tool counter by exactly one. -/
theorem fetch_weather_json_k (w : World) (k : Nat) (city : String) :
    (fetch_weather_json w k city).2.1 = k + 1 := by
  simp only [fetch_weather_json]
  split <;> rfl

/-- The failure tail adds no browser events and keeps the log prefix. -/
theorem weatherFailurePhase_nav_view (w : World) (step1 : StepM) (ut city : String)
    (k : Nat) (evs : List Event) (log : List String) :
    ((weatherFailurePhase w step1 ut city k evs log).yields.countP isNavEv
      = evs.countP isNavEv) ∧
    ((weatherFailurePhase w step1 ut city k evs log).yields.countP isViewEv
      = evs.countP isViewEv) ∧
    (∃ t, (weatherFailurePhase w step1 ut city k evs log).log = log ++ t) := by
  simp only [weatherFailurePhase]
  split
  · exact ⟨rfl, rfl, _, rfl⟩
  · split
    · exact ⟨by simp [List.countP_append, List.countP_cons, isNavEv, isViewEv],
        by simp [List.countP_append, List.countP_cons, isNavEv, isViewEv], _, rfl⟩
    · exact ⟨by simp [List.countP_append, List.countP_cons, isNavEv, isViewEv],
        by simp [List.countP_append, List.countP_cons, isNavEv, isViewEv], _, rfl⟩
  · exact ⟨by simp [List.countP_append, List.countP_cons, isNavEv, isViewEv],
      by simp [List.countP_append, List.countP_cons, isNavEv, isViewEv], _, rfl⟩

/-- The browser phase always performs the navigation (two ToolEvents) and
keeps the log prefix. -/
theorem weatherBrowserPhase_nav (w : World) (step1 : StepM) (ut city : String)
    (k t : Nat) (pre : List Event) (preLog : List String) :
    ((weatherBrowserPhase w step1 ut city k t pre preLog).yields.countP isNavEv
      = pre.countP isNavEv + 2) ∧
    (∃ tl, (weatherBrowserPhase w step1 ut city k t pre preLog).log = preLog ++ tl) := by
  simp only [weatherBrowserPhase]
  split
  · split
    · constructor
      · simp [call_tool, countP_ite, List.countP_append, List.countP_cons, isNavEv]
      · exact ⟨_, by rw [List.append_assoc]⟩
    · obtain ⟨n, _, lg⟩ := weatherFailurePhase_nav_view w step1 ut city _ _ _
      constructor
      · rw [n]
        simp [call_tool, countP_ite, List.countP_append, List.countP_cons, isNavEv]
      · obtain ⟨tl, htl⟩ := lg
        exact ⟨_, by rw [htl, List.append_assoc]⟩
  · obtain ⟨n, _, lg⟩ := weatherFailurePhase_nav_view w step1 ut city _ _ _
    constructor
    · rw [n]
      simp [call_tool, countP_ite, List.countP_append, List.countP_cons, isNavEv]
    · obtain ⟨tl, htl⟩ := lg
      exact ⟨_, by rw [htl, List.append_assoc]⟩

/-- When the in-page script result parses truthy, the browser phase entered
at tool index 1 performs no page read. -/
theorem weatherBrowserPhase_view_zero (w : World) (step1 : StepM) (ut city : String)
    (k : Nat) (pre : List Event) (preLog : List String)
    (hc : pyTruthyO (consoleParse w) = true) :
    (weatherBrowserPhase w step1 ut city k 1 pre preLog).yields.countP isViewEv
      = pre.countP isViewEv := by
  rw [consoleParse] at hc
  simp only [weatherBrowserPhase, call_tool] at hc ⊢
  simp only [hc, if_true]
  split
  · split
    · simp [List.countP_append, List.countP_cons, isViewEv]
    · obtain ⟨_, v, _⟩ := weatherFailurePhase_nav_view w step1 ut city _ _ _
      rw [v]
      simp [List.countP_append, List.countP_cons, isViewEv]
  · obtain ⟨_, v, _⟩ := weatherFailurePhase_nav_view w step1 ut city _ _ _
    rw [v]
    simp [List.countP_append, List.countP_cons, isViewEv]

/-- The world of the C2 counterexample: the primary fetch returns a usable
payload, and so does the in-page script. -/
def c2World : World :=
  { http := fun _ url => if url = wttrUrl "London"
      then some "\x7b\"weather\":[\x7b\x7d]\x7d" else none
    tool := fun t => if t == 2
      then .obj [("result", .str "\x7b\"weather\":[\x7b\x7d]\x7d")] else .null
    toolNameOf := fun _ => "browser"
    execute := fun _ => []
    parseStep := fun _ => none
    promptFmt := fun _ _ _ _ => "p"
    tomorrow := "d" }

/-- C2, counterexample.  The primary direct fetch succeeds with a usable
payload (it parses truthy and formats to a summary), yet the pipeline still
performs browser-mediated actions: both navigation ToolEvents are in the
trace. -/
theorem retrieval_order_counterexample :
    pyTruthyO (fetch_weather_json c2World 0 "London").1 = true ∧
    (dataResultText (fetch_weather_json c2World 0 "London").1 "London"
      "weather\\sin\\sLondon").isSome = true ∧
    (weatherRun c2World {} "weather\\sin\\sLondon" "London").yields.countP isNavEv = 2 :=
  ⟨rfl, rfl, rfl⟩

/-- C2, amended.  The pipeline always issues the primary direct fetch first
(the first logged URL is the primary one), but uses its payload only to
decide whether to consult the secondary provider early: when the primary
fetch fails and the secondary provider renders a summary, the pipeline stops
there with no browser action; when the primary fetch succeeds, its payload
is discarded and the browser navigation is performed anyway; and the
in-page-script / page-read / direct-refetch chain stops at the first
success, so a truthy script result suppresses the page read. -/
theorem retrieval_order_amended (w : World) (step0 : StepM) (ut city : String) :
    ((weatherRun w step0 ut city).log.head? = some (wttrUrl city)) ∧
    (pyTruthyO (fetch_weather_json w 0 city).1 = true →
      (weatherRun w step0 ut city).yields.countP isNavEv = 2) ∧
    (∀ rt, pyTruthyO (fetch_weather_json w 0 city).1 = false →
      omResultText w (fetch_open_meteo w 1 city).1 city ut = .ok (some rt) → rt ≠ "" →
      (weatherRun w step0 ut city).yields.countP isNavEv = 0 ∧
      (weatherRun w step0 ut city).yields.countP isViewEv = 0 ∧
      (weatherRun w step0 ut city).finalStep.status = .completed ∧
      (weatherRun w step0 ut city).finalStep.result = some rt) ∧
    (pyTruthyO (consoleParse w) = true →
      (weatherRun w step0 ut city).yields.countP isViewEv = 0) := by
  refine ⟨?_, ?_, ?_, ?_⟩
  · simp only [weatherRun]
    split
    · split
      · rw [fetch_weather_json_log]
        rfl
      · split
        · rw [fetch_weather_json_log]
          rfl
        · obtain ⟨_, ⟨tl, htl⟩⟩ := weatherBrowserPhase_nav w _ ut city _ 1 _ _
          rw [htl, fetch_weather_json_log]
          rfl
      · obtain ⟨_, ⟨tl, htl⟩⟩ := weatherBrowserPhase_nav w _ ut city _ 1 _ _
        rw [htl, fetch_weather_json_log]
        rfl
    · obtain ⟨_, ⟨tl, htl⟩⟩ := weatherBrowserPhase_nav w _ ut city _ 1 _ _
      rw [htl, fetch_weather_json_log]
      rfl
  · intro hP
    simp only [weatherRun, hP, Bool.not_true, Bool.false_eq_true, if_false]
    rw [(weatherBrowserPhase_nav w _ ut city _ 1 _ _).1]
    simp [call_tool, List.countP_cons, isNavEv]
  · intro rt hP hom hrt
    simp only [weatherRun, fetch_weather_json_k, Nat.zero_add, hP, Bool.not_false,
      if_true, hom]
    rw [if_pos hrt]
    refine ⟨?_, ?_, rfl, rfl⟩ <;>
      simp [call_tool, List.countP_append, List.countP_cons, isNavEv, isViewEv]
  · intro hc
    simp only [weatherRun]
    split
    · split
      · simp [call_tool, List.countP_cons, isViewEv]
      · split
        · simp [call_tool, List.countP_append, List.countP_cons, isViewEv]
        · rw [weatherBrowserPhase_view_zero w _ ut city _ _ _ hc]
          simp [call_tool, List.countP_cons, isViewEv]
      · rw [weatherBrowserPhase_view_zero w _ ut city _ _ _ hc]
        simp [call_tool, List.countP_cons, isViewEv]
    · rw [weatherBrowserPhase_view_zero w _ ut city _ _ _ hc]
      simp [call_tool, List.countP_cons, isViewEv]

/-- A world where the primary direct fetch fails but the secondary provider
geocodes the city and returns a two-day forecast, so its summary renders. -/
def c2WorldB : World :=
  { http := fun _ url =>
      if url = geoUrl "Paris" then
        some "\x7b\"results\":[\x7b\"latitude\":1,\"longitude\":2\x7d]\x7d"
      else if url = forecastUrl (.num 1) (.num 2) then
        some ("\x7b\"daily\":\x7b\"time\":[\"d1\",\"d2\"],\"weather_code\":[0,0]," ++
          "\"temperature_2m_max\":[10,11],\"temperature_2m_min\":[1,2]\x7d\x7d")
      else none
    tool := fun _ => .null
    toolNameOf := fun _ => "browser"
    execute := fun _ => []
    parseStep := fun _ => none
    promptFmt := fun _ _ _ _ => "p"
    tomorrow := "d2" }

/-- The summary the secondary provider renders in `c2WorldB`. -/
def c2SummaryB : String :=
  "Tomorrow in Paris: Conditions: Clear, High 11°C, Low 2°C (source: open-meteo.com)"

set_option maxRecDepth 8000 in
/-- Witness for C2's amended statement: in `c2World` the primary fetch and
the in-page script both succeed, the run opens with the primary URL, still
navigates twice, and reads no page; in `c2WorldB` the primary fetch fails,
the secondary summary renders, and the run completes with it and no
navigation. -/
theorem retrieval_order_amended_witness :
    ((weatherRun c2World {} "weather\\sin\\sLondon" "London").log.head? =
      some (wttrUrl "London")) ∧
    (weatherRun c2World {} "weather\\sin\\sLondon" "London").yields.countP isNavEv = 2 ∧
    (weatherRun c2World {} "weather\\sin\\sLondon" "London").yields.countP isViewEv = 0 ∧
    (weatherRun c2WorldB {} "weather\\sin\\sParis" "Paris").yields.countP isNavEv = 0 ∧
    (weatherRun c2WorldB {} "weather\\sin\\sParis" "Paris").finalStep.status = .completed ∧
    (weatherRun c2WorldB {} "weather\\sin\\sParis" "Paris").finalStep.result =
      some c2SummaryB :=
  have hA := retrieval_order_amended c2World {} "weather\\sin\\sLondon" "London"
  have hB := retrieval_order_amended c2WorldB {} "weather\\sin\\sParis" "Paris"
  have hOm := hB.2.2.1 c2SummaryB rfl rfl (by decide)
  ⟨hA.1, hA.2.1 rfl, hA.2.2.2 rfl, hOm.1, hOm.2.2.1, hOm.2.2.2⟩

end Manus
